import Mathlib

/-!
# aubo_new_driver: hardware interface (mode arbiter, rate limiter, control cycle)

Shallow embedding of `AuboHardwareInterface` from
`aubo_new_driver/src/aubo_hardware_interface.cpp`.

* `double` values are embedded as rationals (exact arithmetic).
* C++ containers are lists; `operator[]` outside the range is an error (`none`).
* Calls on the external driver `robot_` are recorded as a list of `DriverCall`.
* `ROS_INFO`/`ROS_ERROR`/`ROS_DEBUG` logging is not part of the model.
-/

namespace ros_control_aubo

/-- The part of `hardware_interface::ControllerInfo` read by the switch code. -/
structure ControllerInfo where
  name : String
  type : String
deriving DecidableEq, Repr

/-- Type string compared against in `canSwitch`/`doSwitch` for velocity controllers. -/
def velocityType : String := "velocity_controllers/JointTrajectoryController"

/-- Type string compared against in `canSwitch`/`doSwitch` for position controllers. -/
def positionType : String := "position_controllers/JointTrajectoryController"

/-- Calls issued on the external driver object `robot_`. -/
inductive DriverCall where
  | setSpeed (q0 q1 q2 q3 q4 q5 speed : ℚ)
  | servoj (positions : List ℚ)
  | closeServo (positions : List ℚ)
  | openServo
deriving DecidableEq, Repr

/-- Data members of `AuboHardwareInterface` (header file), interfaces and handles left out. -/
structure AuboHardwareInterface where
  velocity_interface_running_ : Bool
  position_interface_running_ : Bool
  joint_names_ : List String
  joint_position_ : List ℚ
  joint_velocity_ : List ℚ
  joint_effort_ : List ℚ
  joint_position_command_ : List ℚ
  joint_velocity_command_ : List ℚ
  prev_joint_velocity_command_ : List ℚ
  num_joints_ : Nat
  robot_force_ : List ℚ
  robot_torque_ : List ℚ
  max_vel_change_ : ℚ
deriving DecidableEq, Repr

/-- Embedding of `AuboHardwareInterface::init` followed by the rest of the constructor body:
the joint names come from the parameter server; an empty list ends the process
(`exit(-1)`, here `none`); all six vectors are resized to `num_joints_` (value
initialised to zero), both mode flags are cleared, and the constructor then sets
`max_vel_change_ = 0.12`. -/
def init (joint_names : List String) : Option AuboHardwareInterface :=
  if joint_names.length = 0 then none
  else
    let n := joint_names.length
    some
      { velocity_interface_running_ := false
        position_interface_running_ := false
        joint_names_ := joint_names
        joint_position_ := List.replicate n 0
        joint_velocity_ := List.replicate n 0
        joint_effort_ := List.replicate n 0
        joint_position_command_ := List.replicate n 0
        joint_velocity_command_ := List.replicate n 0
        prev_joint_velocity_command_ := List.replicate n 0
        num_joints_ := n
        robot_force_ := [0, 0, 0]
        robot_torque_ := [0, 0, 0]
        max_vel_change_ := 12 / 100 }

/-- Embedding of `AuboHardwareInterface::setMaxVelChange`. -/
def setMaxVelChange (hw : AuboHardwareInterface) (inp : ℚ) : AuboHardwareInterface :=
  { hw with max_vel_change_ := inp }

/-! ## canSwitch -/

/-- Inner loop of `canSwitch`: `error` starts as `true` and is cleared (with `break`)
at the first element of `stop_list` whose type equals `ty`.  Returns the final `error`. -/
def stopListError (ty : String) : List ControllerInfo → Bool
  | [] => true
  | c :: rest => if c.type = ty then false else stopListError ty rest

/-- Embedding of `AuboHardwareInterface::canSwitch` (a `const` member function): the loop
over `start_list` with its early `return false` exits, `return true` after the loop. -/
def canSwitch (hw : AuboHardwareInterface) :
    List ControllerInfo → List ControllerInfo → Bool
  | [], _ => true
  | c :: rest, stop_list =>
    if c.type = velocityType then
      if hw.velocity_interface_running_ then false
      else if hw.position_interface_running_ then
        if stopListError positionType stop_list then false
        else canSwitch hw rest stop_list
      else canSwitch hw rest stop_list
    else if c.type = positionType then
      if hw.position_interface_running_ then false
      else if hw.velocity_interface_running_ then
        if stopListError velocityType stop_list then false
        else canSwitch hw rest stop_list
      else canSwitch hw rest stop_list
    else canSwitch hw rest stop_list

/-- One call of `canSwitch` on the object: the returned flag and the object after the
call.  The member function is declared `const` and the class has no `mutable` member, so
the body only reads the object, which is handed back as received. -/
def canSwitchCall (hw : AuboHardwareInterface) (start_list stop_list : List ControllerInfo) :
    Bool × AuboHardwareInterface :=
  (canSwitch hw start_list stop_list, hw)

/-- Repeated calls of `canSwitch` with the same arguments and no other operation
in between: the list of returned flags (first call first) and the object afterwards. -/
def canSwitchRepeat (start_list stop_list : List ControllerInfo) :
    Nat → AuboHardwareInterface → List Bool × AuboHardwareInterface
  | 0, hw => ([], hw)
  | n + 1, hw =>
    let r := canSwitchCall hw start_list stop_list
    let rs := canSwitchRepeat start_list stop_list n r.2
    (r.1 :: rs.1, rs.2)

/-! ## doSwitch -/

/-- Body of the first loop of `doSwitch` for one element of `stop_list`. -/
def doSwitchStop (acc : AuboHardwareInterface × List DriverCall) (c : ControllerInfo) :
    AuboHardwareInterface × List DriverCall :=
  let hw1 :=
    if c.type = velocityType then { acc.1 with velocity_interface_running_ := false }
    else acc.1
  if c.type = positionType then
    ({ hw1 with position_interface_running_ := false }, acc.2 ++ [DriverCall.closeServo []])
  else (hw1, acc.2)

/-- Body of the second loop of `doSwitch` for one element of `start_list`. -/
def doSwitchStart (acc : AuboHardwareInterface × List DriverCall) (c : ControllerInfo) :
    AuboHardwareInterface × List DriverCall :=
  let hw1 :=
    if c.type = velocityType then { acc.1 with velocity_interface_running_ := true }
    else acc.1
  if c.type = positionType then
    ({ hw1 with position_interface_running_ := true }, acc.2 ++ [DriverCall.openServo])
  else (hw1, acc.2)

/-- Embedding of `AuboHardwareInterface::doSwitch`: the loop over `stop_list`, then the
loop over `start_list`; returns the object afterwards and the driver calls in order. -/
def doSwitch (hw : AuboHardwareInterface) (start_list stop_list : List ControllerInfo) :
    AuboHardwareInterface × List DriverCall :=
  start_list.foldl doSwitchStart (stop_list.foldl doSwitchStop (hw, []))

/-! ## write -/

/-- The per-joint rate limiting inside the loop of `write`: `r` is
`joint_velocity_command_[i]`, `v` is `prev_joint_velocity_command_[i]`, `d` is
`max_vel_change_`; the value is what `cmd[i]` holds at the end of the iteration. -/
def limit (r v d : ℚ) : ℚ :=
  if r > v + d then v + d
  else if r < v - d then v - d
  else r

/-- Iteration `i` of the loop of `write` on the pair (`cmd`, `prev_joint_velocity_command_`). -/
def writeLoopStep (joint_velocity_command_ : List ℚ) (max_vel_change_ : ℚ)
    (st : List ℚ × List ℚ) (i : Nat) : Option (List ℚ × List ℚ) :=
  match joint_velocity_command_[i]?, st.2[i]? with
  | some r, some v =>
    if i < st.1.length then
      some (st.1.set i (limit r v max_vel_change_), st.2.set i (limit r v max_vel_change_))
    else none
  | _, _ => none

/-- The loop of `write` run for `i = 0, ..., n - 1`, from `cmd` resized to
`joint_velocity_command_.size()` (zeros).  The counter is an `unsigned int`; the vector
sizes are taken to be below `2^32`, so the counter is a natural number here. -/
def writeLoop (joint_velocity_command_ prev : List ℚ) (max_vel_change_ : ℚ) (n : Nat) :
    Option (List ℚ × List ℚ) :=
  (List.range n).foldlM (writeLoopStep joint_velocity_command_ max_vel_change_)
    (List.replicate joint_velocity_command_.length 0, prev)

/-- Embedding of `AuboHardwareInterface::write`: the object afterwards and the driver
calls issued, or `none` when a vector is indexed outside its range. -/
def write (hw : AuboHardwareInterface) : Option (AuboHardwareInterface × List DriverCall) :=
  if hw.velocity_interface_running_ then
    match writeLoop hw.joint_velocity_command_ hw.prev_joint_velocity_command_
        hw.max_vel_change_ hw.joint_velocity_command_.length with
    | none => none
    | some (cmd, prev) =>
      match cmd[0]?, cmd[1]?, cmd[2]?, cmd[3]?, cmd[4]?, cmd[5]? with
      | some c0, some c1, some c2, some c3, some c4, some c5 =>
        some ({ hw with prev_joint_velocity_command_ := prev },
          [DriverCall.setSpeed c0 c1 c2 c3 c4 c5 (hw.max_vel_change_ * 125)])
      | _, _, _, _, _, _ => none
  else if hw.position_interface_running_ then
    some (hw, [DriverCall.servoj hw.joint_position_command_])
  else some (hw, [])

/-- Doing `write` `k` times in a row with no other operation in between (the command
buffers are left as they are): the object afterwards and all driver calls in order, or
`none` as soon as one `write` indexes outside a range. -/
def writeRepeat : Nat → AuboHardwareInterface → Option (AuboHardwareInterface × List DriverCall)
  | 0, hw => some (hw, [])
  | k + 1, hw =>
    match write hw with
    | none => none
    | some (hw1, calls1) =>
      match writeRepeat k hw1 with
      | none => none
      | some (hw2, calls2) => some (hw2, calls1 ++ calls2)

/-- The limiter of `write` applied `k` times to the previous value `v` with the request
held at `r`: the value of one entry of `prev_joint_velocity_command_` after `k` calls. -/
def limitIter (r d : ℚ) : Nat → ℚ → ℚ
  | 0, v => v
  | k + 1, v => limitIter r d k (limit r v d)

/-! ## read -/

/-- Iteration `i` of the first loop of `read`: `pos`, `vel`, `current` are the vectors
returned by the driver's `getJonitPosition`, `getJonitVelocity`, `getJointCurrent`. -/
def readJointStep (pos vel current : List ℚ) (hw : AuboHardwareInterface) (i : Nat) :
    Option AuboHardwareInterface :=
  match pos[i]?, vel[i]?, current[i]? with
  | some p, some v, some c =>
    if i < hw.joint_position_.length ∧ i < hw.joint_velocity_.length ∧
        i < hw.joint_effort_.length then
      some { hw with
        joint_position_ := hw.joint_position_.set i p
        joint_velocity_ := hw.joint_velocity_.set i v
        joint_effort_ := hw.joint_effort_.set i c }
    else none
  | _, _, _ => none

/-- Iteration `i` of the second loop of `read`: `tcp` is the vector returned by the
driver's `getTcpForce`. -/
def readWrenchStep (tcp : List ℚ) (hw : AuboHardwareInterface) (i : Nat) :
    Option AuboHardwareInterface :=
  match tcp[i]?, tcp[i + 3]? with
  | some f, some t =>
    if i < hw.robot_force_.length ∧ i < hw.robot_torque_.length then
      some { hw with
        robot_force_ := hw.robot_force_.set i f
        robot_torque_ := hw.robot_torque_.set i t }
    else none
  | _, _ => none

/-- Embedding of `AuboHardwareInterface::read`, the four telemetry vectors of the
driver given as arguments: the loop over `i < num_joints_`, then the loop over `i < 3`;
`none` when a vector or array is indexed outside its range. -/
def read (hw : AuboHardwareInterface) (pos vel current tcp : List ℚ) :
    Option AuboHardwareInterface :=
  match (List.range hw.num_joints_).foldlM (readJointStep pos vel current) hw with
  | none => none
  | some hw1 => (List.range 3).foldlM (readWrenchStep tcp) hw1

/-! ## Concrete data used in evaluations -/

/-- A velocity trajectory controller descriptor. -/
def velController : ControllerInfo := ⟨"vel_based_pos_traj_controller", velocityType⟩

/-- A position trajectory controller descriptor. -/
def posController : ControllerInfo := ⟨"pos_based_pos_traj_controller", positionType⟩

/-- A descriptor of neither type. -/
def otherController : ControllerInfo :=
  ⟨"joint_state_controller", "joint_state_controller/JointStateController"⟩

/-- The object right after construction with six joints. -/
def hw6 : AuboHardwareInterface :=
  { velocity_interface_running_ := false
    position_interface_running_ := false
    joint_names_ := ["shoulder_joint", "upperArm_joint", "foreArm_joint",
      "wrist1_joint", "wrist2_joint", "wrist3_joint"]
    joint_position_ := [0, 0, 0, 0, 0, 0]
    joint_velocity_ := [0, 0, 0, 0, 0, 0]
    joint_effort_ := [0, 0, 0, 0, 0, 0]
    joint_position_command_ := [0, 0, 0, 0, 0, 0]
    joint_velocity_command_ := [0, 0, 0, 0, 0, 0]
    prev_joint_velocity_command_ := [0, 0, 0, 0, 0, 0]
    num_joints_ := 6
    robot_force_ := [0, 0, 0]
    robot_torque_ := [0, 0, 0]
    max_vel_change_ := 12 / 100 }

/-- The object in position mode (as `hw6`, with the position flag set). -/
def hwPos : AuboHardwareInterface := { hw6 with position_interface_running_ := true }

/-- The object in velocity mode (as `hw6`, with the velocity flag set). -/
def hwVel : AuboHardwareInterface := { hw6 with velocity_interface_running_ := true }

/-- The clamp of the rate limiter as the specification words it:
`clamp(requested, previous - maxDelta, previous + maxDelta)`. -/
def clamp (x lo hi : ℚ) : ℚ := max lo (min x hi)

/-- Velocity mode, six joints, `max_vel_change_ = 0.12`, nothing dispatched before,
requested velocity command `[1, 0, 0, 0, 0, 0]`. -/
def hwScenario : AuboHardwareInterface :=
  { hw6 with
    velocity_interface_running_ := true
    joint_velocity_command_ := [1, 0, 0, 0, 0, 0] }

/-- Whether a descriptor carries one of the two type strings the switch code looks for. -/
def isModeTagged (c : ControllerInfo) : Bool :=
  decide (c.type = velocityType) || decide (c.type = positionType)

/-- Telemetry used in evaluations of `read`: six joints and a six-entry wrench. -/
def telemetryPos : List ℚ := [1, 2, 3, 4, 5, 6]

/-- Joint velocities of the example telemetry. -/
def telemetryVel : List ℚ := [0, 1 / 2, 0, 0, 0, 0]

/-- Joint currents of the example telemetry. -/
def telemetryCurrent : List ℚ := [7, 8, 9, 10, 11, 12]

/-- Combined force/torque vector of the example telemetry. -/
def telemetryTcp : List ℚ := [10, 20, 30, 40, 50, 60]

/-- Velocity mode with only five joints (all vectors of length five). -/
def hwFive : AuboHardwareInterface :=
  { velocity_interface_running_ := true
    position_interface_running_ := false
    joint_names_ := ["j1", "j2", "j3", "j4", "j5"]
    joint_position_ := [0, 0, 0, 0, 0]
    joint_velocity_ := [0, 0, 0, 0, 0]
    joint_effort_ := [0, 0, 0, 0, 0]
    joint_position_command_ := [0, 0, 0, 0, 0]
    joint_velocity_command_ := [1, 0, 0, 0, 0]
    prev_joint_velocity_command_ := [0, 0, 0, 0, 0]
    num_joints_ := 5
    robot_force_ := [0, 0, 0]
    robot_torque_ := [0, 0, 0]
    max_vel_change_ := 12 / 100 }

/-- Velocity mode with seven joints (all vectors of length seven). -/
def hwSeven : AuboHardwareInterface :=
  { velocity_interface_running_ := true
    position_interface_running_ := false
    joint_names_ := ["j1", "j2", "j3", "j4", "j5", "j6", "j7"]
    joint_position_ := [0, 0, 0, 0, 0, 0, 0]
    joint_velocity_ := [0, 0, 0, 0, 0, 0, 0]
    joint_effort_ := [0, 0, 0, 0, 0, 0, 0]
    joint_position_command_ := [0, 0, 0, 0, 0, 0, 0]
    joint_velocity_command_ := [0, 0, 0, 0, 0, 0, 1]
    prev_joint_velocity_command_ := [0, 0, 0, 0, 0, 0, 0]
    num_joints_ := 7
    robot_force_ := [0, 0, 0]
    robot_torque_ := [0, 0, 0]
    max_vel_change_ := 12 / 100 }

/-! ## Lemmas on the switch code -/

theorem velocityType_ne_positionType : velocityType ≠ positionType := by decide

theorem stopListError_eq_false_iff (ty : String) (l : List ControllerInfo) :
    stopListError ty l = false ↔ ∃ e ∈ l, e.type = ty := by
  induction l with
  | nil => simp [stopListError]
  | cons c rest ih =>
    by_cases h : c.type = ty
    · simp [stopListError, h]
    · simp [stopListError, h, ih]

theorem stopListError_eq_true_iff (ty : String) (l : List ControllerInfo) :
    stopListError ty l = true ↔ ∀ e ∈ l, e.type ≠ ty := by
  induction l with
  | nil => simp [stopListError]
  | cons c rest ih =>
    by_cases h : c.type = ty
    · simp [stopListError, h]
    · simp [stopListError, h, ih]

theorem canSwitch_cons (hw : AuboHardwareInterface) (c : ControllerInfo)
    (rest stop_list : List ControllerInfo) :
    canSwitch hw (c :: rest) stop_list = true ↔
      ((c.type = velocityType → hw.velocity_interface_running_ = false ∧
          (hw.position_interface_running_ = true →
            stopListError positionType stop_list = false)) ∧
        (c.type = positionType → hw.position_interface_running_ = false ∧
          (hw.velocity_interface_running_ = true →
            stopListError velocityType stop_list = false))) ∧
      canSwitch hw rest stop_list = true := by
  have hne := velocityType_ne_positionType
  by_cases hv : c.type = velocityType
  · have hp : c.type ≠ positionType := fun h => hne (hv.symm.trans h)
    cases hvr : hw.velocity_interface_running_ <;>
      cases hpr : hw.position_interface_running_ <;>
      cases hs : stopListError positionType stop_list <;>
      simp [canSwitch, hv, hvr, hpr, hs, hne]
  · by_cases hp : c.type = positionType
    · cases hvr : hw.velocity_interface_running_ <;>
        cases hpr : hw.position_interface_running_ <;>
        cases hs : stopListError velocityType stop_list <;>
        simp [canSwitch, hv, hp, hvr, hpr, hs, hne.symm]
    · simp [canSwitch, hv, hp]

theorem canSwitch_eq_true_iff (hw : AuboHardwareInterface)
    (start_list stop_list : List ControllerInfo) :
    canSwitch hw start_list stop_list = true ↔
      ∀ d ∈ start_list,
        (d.type = velocityType → hw.velocity_interface_running_ = false ∧
          (hw.position_interface_running_ = true →
            stopListError positionType stop_list = false)) ∧
        (d.type = positionType → hw.position_interface_running_ = false ∧
          (hw.velocity_interface_running_ = true →
            stopListError velocityType stop_list = false)) := by
  induction start_list with
  | nil => simp [canSwitch]
  | cons c rest ih => rw [canSwitch_cons, ih, List.forall_mem_cons]

theorem doSwitchStop_fold_velocity (stop_list : List ControllerInfo)
    (acc : AuboHardwareInterface × List DriverCall) :
    (stop_list.foldl doSwitchStop acc).1.velocity_interface_running_ =
      (acc.1.velocity_interface_running_ && stopListError velocityType stop_list) := by
  induction stop_list generalizing acc with
  | nil => simp [stopListError]
  | cons c rest ih =>
    rw [List.foldl_cons, ih]
    by_cases hv : c.type = velocityType
    · have hp : c.type ≠ positionType :=
        fun h => velocityType_ne_positionType (hv.symm.trans h)
      simp [doSwitchStop, stopListError, hv, velocityType_ne_positionType]
    · by_cases hp : c.type = positionType <;>
        simp [doSwitchStop, stopListError, hv, hp, velocityType_ne_positionType.symm]

theorem doSwitchStop_fold_position (stop_list : List ControllerInfo)
    (acc : AuboHardwareInterface × List DriverCall) :
    (stop_list.foldl doSwitchStop acc).1.position_interface_running_ =
      (acc.1.position_interface_running_ && stopListError positionType stop_list) := by
  induction stop_list generalizing acc with
  | nil => simp [stopListError]
  | cons c rest ih =>
    rw [List.foldl_cons, ih]
    by_cases hv : c.type = velocityType
    · have hp : c.type ≠ positionType :=
        fun h => velocityType_ne_positionType (hv.symm.trans h)
      simp [doSwitchStop, stopListError, hv, velocityType_ne_positionType]
    · by_cases hp : c.type = positionType <;>
        simp [doSwitchStop, stopListError, hv, hp, velocityType_ne_positionType.symm]

theorem doSwitchStart_fold_velocity (start_list : List ControllerInfo)
    (acc : AuboHardwareInterface × List DriverCall) :
    (start_list.foldl doSwitchStart acc).1.velocity_interface_running_ =
      (acc.1.velocity_interface_running_ || !stopListError velocityType start_list) := by
  induction start_list generalizing acc with
  | nil => simp [stopListError]
  | cons c rest ih =>
    rw [List.foldl_cons, ih]
    by_cases hv : c.type = velocityType
    · have hp : c.type ≠ positionType :=
        fun h => velocityType_ne_positionType (hv.symm.trans h)
      simp [doSwitchStart, stopListError, hv, velocityType_ne_positionType]
    · by_cases hp : c.type = positionType <;>
        simp [doSwitchStart, stopListError, hv, hp, velocityType_ne_positionType.symm]

theorem doSwitchStart_fold_position (start_list : List ControllerInfo)
    (acc : AuboHardwareInterface × List DriverCall) :
    (start_list.foldl doSwitchStart acc).1.position_interface_running_ =
      (acc.1.position_interface_running_ || !stopListError positionType start_list) := by
  induction start_list generalizing acc with
  | nil => simp [stopListError]
  | cons c rest ih =>
    rw [List.foldl_cons, ih]
    by_cases hv : c.type = velocityType
    · have hp : c.type ≠ positionType :=
        fun h => velocityType_ne_positionType (hv.symm.trans h)
      simp [doSwitchStart, stopListError, hv, velocityType_ne_positionType]
    · by_cases hp : c.type = positionType <;>
        simp [doSwitchStart, stopListError, hv, hp, velocityType_ne_positionType.symm]

/-! ## Mode arbiter: settled properties -/

/-- C1: evaluation of the code at a request that starts a velocity and a position
controller together from the freshly initialised object: `canSwitch` admits the request
and `doSwitch` leaves both mode flags set. -/
theorem joint_start_sets_both_flags :
    init hw6.joint_names_ = some hw6 ∧
    hw6.velocity_interface_running_ = false ∧ hw6.position_interface_running_ = false ∧
    canSwitch hw6 [velController, posController] [] = true ∧
    (doSwitch hw6 [velController, posController] []).1.velocity_interface_running_ = true ∧
    (doSwitch hw6 [velController, posController] []).1.position_interface_running_ = true := by
  refine ⟨by simp [init, hw6, List.replicate], rfl, rfl, by decide, by decide, by decide⟩

/-- C2: admission rule. `canSwitch` returns true exactly when every descriptor of the
start list passes its rule: a velocity descriptor needs the velocity flag clear and, when
the position flag is set, a position descriptor in the stop list; a position descriptor
needs the position flag clear and, when the velocity flag is set, a velocity descriptor
in the stop list. -/
theorem canSwitch_admission_rule (hw : AuboHardwareInterface)
    (start_list stop_list : List ControllerInfo) :
    canSwitch hw start_list stop_list = true ↔
      ∀ d ∈ start_list,
        (d.type = velocityType →
          hw.velocity_interface_running_ = false ∧
          (hw.position_interface_running_ = true →
            ∃ e ∈ stop_list, e.type = positionType)) ∧
        (d.type = positionType →
          hw.position_interface_running_ = false ∧
          (hw.velocity_interface_running_ = true →
            ∃ e ∈ stop_list, e.type = velocityType)) := by
  rw [canSwitch_eq_true_iff]
  simp only [stopListError_eq_false_iff]

/-- C3: atomic swap. In position mode a request starting one velocity descriptor and
stopping a list that holds a position descriptor is admitted, and `doSwitch` ends with the
velocity flag set and the position flag clear; the same with the two modes exchanged. -/
theorem atomic_swap :
    (∀ (hw : AuboHardwareInterface) (d : ControllerInfo) (stop_list : List ControllerInfo),
      hw.position_interface_running_ = true → hw.velocity_interface_running_ = false →
      d.type = velocityType → (∃ e ∈ stop_list, e.type = positionType) →
      canSwitch hw [d] stop_list = true ∧
      (doSwitch hw [d] stop_list).1.velocity_interface_running_ = true ∧
      (doSwitch hw [d] stop_list).1.position_interface_running_ = false) ∧
    (∀ (hw : AuboHardwareInterface) (d : ControllerInfo) (stop_list : List ControllerInfo),
      hw.velocity_interface_running_ = true → hw.position_interface_running_ = false →
      d.type = positionType → (∃ e ∈ stop_list, e.type = velocityType) →
      canSwitch hw [d] stop_list = true ∧
      (doSwitch hw [d] stop_list).1.position_interface_running_ = true ∧
      (doSwitch hw [d] stop_list).1.velocity_interface_running_ = false) := by
  have hne := velocityType_ne_positionType
  constructor
  · intro hw d stop_list hp hv hd hstop
    have hs := (stopListError_eq_false_iff positionType stop_list).mpr hstop
    refine ⟨?_, ?_, ?_⟩
    · rw [canSwitch_cons]
      simp [hd, hv, hp, hs, hne, canSwitch]
    · rw [doSwitch, doSwitchStart_fold_velocity]
      simp [stopListError, hd]
    · rw [doSwitch, doSwitchStart_fold_position, doSwitchStop_fold_position]
      simp [stopListError, hd, hne, hs]
  · intro hw d stop_list hv hp hd hstop
    have hs := (stopListError_eq_false_iff velocityType stop_list).mpr hstop
    refine ⟨?_, ?_, ?_⟩
    · rw [canSwitch_cons]
      simp [hd, hv, hp, hs, hne.symm, canSwitch]
    · rw [doSwitch, doSwitchStart_fold_position]
      simp [stopListError, hd]
    · rw [doSwitch, doSwitchStart_fold_velocity, doSwitchStop_fold_velocity]
      simp [stopListError, hd, hne.symm, hs]

/-- Witness for C3: both swaps on the six-joint object. -/
theorem atomic_swap_witness :
    (canSwitch hwPos [velController] [posController] = true ∧
      (doSwitch hwPos [velController] [posController]).1.velocity_interface_running_ = true ∧
      (doSwitch hwPos [velController] [posController]).1.position_interface_running_ = false) ∧
    (canSwitch hwVel [posController] [velController] = true ∧
      (doSwitch hwVel [posController] [velController]).1.position_interface_running_ = true ∧
      (doSwitch hwVel [posController] [velController]).1.velocity_interface_running_ = false) :=
  ⟨atomic_swap.1 hwPos velController [posController] rfl rfl rfl
      ⟨posController, List.mem_singleton.mpr rfl, rfl⟩,
    atomic_swap.2 hwVel posController [velController] rfl rfl rfl
      ⟨velController, List.mem_singleton.mpr rfl, rfl⟩⟩

/-- C4: rejection. With the position flag set, a start list holding a velocity
descriptor and a stop list holding no position descriptor (the empty list included) make
`canSwitch` return false, and the object after the call is the object before it. -/
theorem canSwitch_rejects_velocity_start (hw : AuboHardwareInterface)
    (start_list stop_list : List ControllerInfo)
    (hpos : hw.position_interface_running_ = true)
    (hstart : ∃ d ∈ start_list, d.type = velocityType)
    (hstop : ∀ e ∈ stop_list, e.type ≠ positionType) :
    canSwitchCall hw start_list stop_list = (false, hw) := by
  have hfalse : canSwitch hw start_list stop_list = false := by
    rw [← Bool.not_eq_true, canSwitch_eq_true_iff]
    intro hall
    obtain ⟨d, hd, hty⟩ := hstart
    have herr := ((hall d hd).1 hty).2 hpos
    rw [(stopListError_eq_true_iff positionType stop_list).mpr hstop] at herr
    exact absurd herr (by decide)
  simp [canSwitchCall, hfalse]

/-- Witness for C4: position mode, start = one velocity descriptor, stop = empty. -/
theorem canSwitch_rejects_velocity_start_witness :
    canSwitchCall hwPos [velController] [] = (false, hwPos) :=
  canSwitch_rejects_velocity_start hwPos [velController] [] rfl
    ⟨velController, List.mem_singleton.mpr rfl, rfl⟩ (fun _ h => absurd h (List.not_mem_nil _))

/-- C10: `canSwitch` is pure. A call hands the object back unchanged, and any number of
repeated calls with the same arguments return the same flag each time and still leave the
object unchanged. -/
theorem canSwitch_pure (hw : AuboHardwareInterface)
    (start_list stop_list : List ControllerInfo) :
    (canSwitchCall hw start_list stop_list).2 = hw ∧
    (canSwitchCall (canSwitchCall hw start_list stop_list).2 start_list stop_list).1 =
      (canSwitchCall hw start_list stop_list).1 ∧
    ∀ n : Nat, canSwitchRepeat start_list stop_list n hw =
      (List.replicate n (canSwitch hw start_list stop_list), hw) := by
  refine ⟨rfl, rfl, ?_⟩
  intro n
  induction n with
  | zero => rfl
  | succ k ih => simp [canSwitchRepeat, canSwitchCall, ih, List.replicate]

/-! ## Lemmas on `write` -/

theorem limit_eq_clamp (r v d : ℚ) (hd : 0 ≤ d) : limit r v d = clamp r (v - d) (v + d) := by
  unfold limit clamp
  split_ifs with h1 h2
  · rw [min_eq_right (le_of_lt h1), max_eq_right (by linarith)]
  · rw [min_eq_left (by linarith), max_eq_left (le_of_lt h2)]
  · rw [min_eq_left (by linarith), max_eq_right (by linarith)]

theorem writeLoop_upto (jvc prev0 : List ℚ) (d : ℚ) (hlen : jvc.length ≤ prev0.length) :
    ∀ k, k ≤ jvc.length →
      ∃ cmd prev,
        (List.range k).foldlM (writeLoopStep jvc d) (List.replicate jvc.length 0, prev0)
          = some (cmd, prev) ∧
        cmd.length = jvc.length ∧ prev.length = prev0.length ∧
        (∀ j, j < k → cmd[j]? = (List.zipWith (fun r v => limit r v d) jvc prev0)[j]? ∧
          prev[j]? = (List.zipWith (fun r v => limit r v d) jvc prev0)[j]?) ∧
        (∀ j, k ≤ j → prev[j]? = prev0[j]?) := by
  intro k
  induction k with
  | zero =>
    intro _
    exact ⟨_, _, rfl, by simp, rfl, by simp, by simp⟩
  | succ k ih =>
    intro hk
    obtain ⟨cmd, prev, hfold, hc, hp, hlt, hge⟩ := ih (by omega)
    have hkj : k < jvc.length := by omega
    have hkp : k < prev0.length := by omega
    have h1 : jvc[k]? = some jvc[k] := List.getElem?_eq_getElem hkj
    have h2 : prev[k]? = some prev0[k] := by
      rw [hge k (le_refl k)]; exact List.getElem?_eq_getElem hkp
    have hz : (List.zipWith (fun r v => limit r v d) jvc prev0)[k]?
        = some (limit jvc[k] prev0[k] d) := by
      rw [List.getElem?_zipWith, h1, List.getElem?_eq_getElem hkp]
    refine ⟨cmd.set k (limit jvc[k] prev0[k] d), prev.set k (limit jvc[k] prev0[k] d),
      ?_, by simp [hc], by simp [hp], ?_, ?_⟩
    · rw [List.range_succ, List.foldlM_append, hfold]
      simp [writeLoopStep, h1, h2, hc, hkj]
    · intro j hj
      by_cases hjk : j = k
      · subst hjk
        rw [List.getElem?_set_self (by omega), List.getElem?_set_self (by omega), hz]
        exact ⟨rfl, rfl⟩
      · rw [List.getElem?_set_ne (Ne.symm hjk), List.getElem?_set_ne (Ne.symm hjk)]
        exact hlt j (by omega)
    · intro j hj
      rw [List.getElem?_set_ne (by omega)]
      exact hge j (by omega)

/-- Closed form of the loop of `write` when `prev_joint_velocity_command_` is at least as
long as `joint_velocity_command_`. -/
theorem writeLoop_eq (jvc prev0 : List ℚ) (d : ℚ) (hlen : jvc.length ≤ prev0.length) :
    writeLoop jvc prev0 d jvc.length =
      some (List.zipWith (fun r v => limit r v d) jvc prev0,
        List.zipWith (fun r v => limit r v d) jvc prev0 ++ prev0.drop jvc.length) := by
  obtain ⟨cmd, prev, hfold, hc, hp, hlt, hge⟩ :=
    writeLoop_upto jvc prev0 d hlen jvc.length (le_refl _)
  have hzl : (List.zipWith (fun r v => limit r v d) jvc prev0).length = jvc.length := by
    rw [List.length_zipWith]; omega
  have hcmd : cmd = List.zipWith (fun r v => limit r v d) jvc prev0 := by
    apply List.ext_getElem?
    intro j
    by_cases hj : j < jvc.length
    · exact (hlt j hj).1
    · rw [List.getElem?_eq_none (by omega), List.getElem?_eq_none (by omega)]
  have hprev : prev = List.zipWith (fun r v => limit r v d) jvc prev0
      ++ prev0.drop jvc.length := by
    apply List.ext_getElem?
    intro j
    by_cases hj : j < jvc.length
    · rw [List.getElem?_append_left (by omega)]
      exact (hlt j hj).2
    · rw [List.getElem?_append_right (by omega), hge j (by omega), hzl, List.getElem?_drop]
      congr 1
      omega
  rw [writeLoop, hfold, hcmd, hprev]

theorem exists_six (l : List ℚ) (h : 6 ≤ l.length) :
    ∃ a b c d e f rest, l = a :: b :: c :: d :: e :: f :: rest := by
  rcases l with _ | ⟨a, _ | ⟨b, _ | ⟨c, _ | ⟨d, _ | ⟨e, _ | ⟨f, rest⟩⟩⟩⟩⟩⟩
  all_goals first
    | exact ⟨_, _, _, _, _, _, _, rfl⟩
    | simp at h

/-- The velocity branch of `write` in closed form. -/
theorem write_velocity_eq (hw : AuboHardwareInterface)
    (hvel : hw.velocity_interface_running_ = true)
    (hlen : hw.joint_velocity_command_.length ≤ hw.prev_joint_velocity_command_.length)
    (hsix : 6 ≤ hw.joint_velocity_command_.length) :
    ∃ c0 c1 c2 c3 c4 c5 : ℚ,
      (List.zipWith (fun r v => limit r v hw.max_vel_change_) hw.joint_velocity_command_
        hw.prev_joint_velocity_command_).take 6 = [c0, c1, c2, c3, c4, c5] ∧
      write hw = some
        ({ hw with
            prev_joint_velocity_command_ :=
              (List.zipWith (fun r v => limit r v hw.max_vel_change_)
                hw.joint_velocity_command_ hw.prev_joint_velocity_command_
                ++ hw.prev_joint_velocity_command_.drop hw.joint_velocity_command_.length) },
          [DriverCall.setSpeed c0 c1 c2 c3 c4 c5 (hw.max_vel_change_ * 125)]) := by
  have hzl : 6 ≤ (List.zipWith (fun r v => limit r v hw.max_vel_change_)
      hw.joint_velocity_command_ hw.prev_joint_velocity_command_).length := by
    rw [List.length_zipWith]; omega
  obtain ⟨a, b, c, d, e, f, rest, hL⟩ := exists_six _ hzl
  refine ⟨a, b, c, d, e, f, by rw [hL]; rfl, ?_⟩
  unfold write
  rw [if_pos hvel, writeLoop_eq _ _ _ hlen]
  simp [hL]

/-! ## Control cycle: settled properties -/

/-- C5: rate-limiter bound over exact arithmetic. For `d > 0` the limited value is
within `d` of the previous value, and a request already within `d` of the previous
value is returned as is. -/
theorem limit_bound (r v d : ℚ) (hd : 0 < d) :
    |limit r v d - v| ≤ d ∧ (|r - v| ≤ d → limit r v d = r) := by
  unfold limit
  constructor
  · split_ifs with h1 h2
    · rw [abs_le]; constructor <;> linarith
    · rw [abs_le]; constructor <;> linarith
    · rw [abs_le]; constructor <;> linarith
  · intro h
    rw [abs_le] at h
    split_ifs with h1 h2
    · linarith [h.2]
    · linarith [h.1]
    · rfl

/-- Witness for C5: previous 0, requested 1, `d = 0.12`. -/
theorem limit_bound_witness :
    (0 : ℚ) < 12 / 100 ∧
    (|limit 1 0 (12 / 100) - 0| ≤ 12 / 100 ∧
      (|(1 : ℚ) - 0| ≤ 12 / 100 → limit 1 0 (12 / 100) = 1)) :=
  ⟨by norm_num, limit_bound 1 0 (12 / 100) (by norm_num)⟩

/-- C6: velocity-mode write. With the velocity flag set, `N ≥ 6` joints and a positive
`max_vel_change_`, `write` clamps each requested velocity into
`[previous - max_vel_change_, previous + max_vel_change_]`, stores the clamped list as
the new `prev_joint_velocity_command_`, issues exactly one `setSpeed` call on its first six
entries with speed `max_vel_change_ * 125`, and changes nothing else.  The six-joint
scenario (limit 0.12, previous all zero, requested `[1,0,0,0,0,0]`) gives
`[0.12,0,0,0,0,0]`. -/
theorem write_velocity_mode :
    (∀ (hw : AuboHardwareInterface) (N : Nat),
      hw.velocity_interface_running_ = true →
      hw.joint_velocity_command_.length = N →
      hw.prev_joint_velocity_command_.length = N →
      6 ≤ N → 0 < hw.max_vel_change_ →
      ∃ (limited : List ℚ) (c0 c1 c2 c3 c4 c5 : ℚ),
        limited.length = N ∧
        (∀ i, i < N → ∃ r v,
          hw.joint_velocity_command_[i]? = some r ∧
          hw.prev_joint_velocity_command_[i]? = some v ∧
          limited[i]? = some (clamp r (v - hw.max_vel_change_) (v + hw.max_vel_change_))) ∧
        limited.take 6 = [c0, c1, c2, c3, c4, c5] ∧
        write hw = some
          ({ hw with prev_joint_velocity_command_ := limited },
            [DriverCall.setSpeed c0 c1 c2 c3 c4 c5 (hw.max_vel_change_ * 125)])) ∧
    write hwScenario = some
      ({ hwScenario with prev_joint_velocity_command_ := [12 / 100, 0, 0, 0, 0, 0] },
        [DriverCall.setSpeed (12 / 100) 0 0 0 0 0 15]) := by
  constructor
  · intro hw N hvel hcmd hprev hN hd
    obtain ⟨c0, c1, c2, c3, c4, c5, htake, hwrite⟩ :=
      write_velocity_eq hw hvel (by omega) (by omega)
    have hdrop : hw.prev_joint_velocity_command_.drop hw.joint_velocity_command_.length
        = [] := by
      rw [List.drop_eq_nil_iff]; omega
    rw [hdrop, List.append_nil] at hwrite
    refine ⟨_, c0, c1, c2, c3, c4, c5, ?_, ?_, htake, hwrite⟩
    · rw [List.length_zipWith]; omega
    · intro i hi
      have hi1 : i < hw.joint_velocity_command_.length := by omega
      have hi2 : i < hw.prev_joint_velocity_command_.length := by omega
      refine ⟨hw.joint_velocity_command_[i], hw.prev_joint_velocity_command_[i],
        List.getElem?_eq_getElem hi1, List.getElem?_eq_getElem hi2, ?_⟩
      rw [List.getElem?_zipWith, List.getElem?_eq_getElem hi1, List.getElem?_eq_getElem hi2]
      show some (limit _ _ _) = _
      rw [limit_eq_clamp _ _ _ (le_of_lt hd)]
  · obtain ⟨c0, c1, c2, c3, c4, c5, htake, hwrite⟩ :=
      write_velocity_eq hwScenario rfl (by decide) (by decide)
    have hz : List.zipWith (fun r v => limit r v hwScenario.max_vel_change_)
        hwScenario.joint_velocity_command_ hwScenario.prev_joint_velocity_command_
        = [12 / 100, 0, 0, 0, 0, 0] := by
      simp [hwScenario, hw6, limit]
      norm_num
    have hdrop : hwScenario.prev_joint_velocity_command_.drop
        hwScenario.joint_velocity_command_.length = [] := by decide
    have hspeed : hwScenario.max_vel_change_ * 125 = 15 := by
      simp [hwScenario, hw6]
      norm_num
    rw [hz, hdrop, List.append_nil, hspeed] at hwrite
    rw [hz] at htake
    simp only [List.take, List.cons.injEq, and_true] at htake
    obtain ⟨h0, h1, h2, h3, h4, h5⟩ := htake
    rw [hwrite, ← h0, ← h1, ← h2, ← h3, ← h4, ← h5]

/-- Witness for C6: the general statement applied to the six-joint scenario. -/
theorem write_velocity_mode_witness :
    hwScenario.velocity_interface_running_ = true ∧
    6 ≤ hwScenario.joint_velocity_command_.length ∧
    0 < hwScenario.max_vel_change_ ∧
    ∃ (limited : List ℚ) (c0 c1 c2 c3 c4 c5 : ℚ),
      limited.length = 6 ∧
      (∀ i, i < 6 → ∃ r v,
        hwScenario.joint_velocity_command_[i]? = some r ∧
        hwScenario.prev_joint_velocity_command_[i]? = some v ∧
        limited[i]? = some
          (clamp r (v - hwScenario.max_vel_change_) (v + hwScenario.max_vel_change_))) ∧
      limited.take 6 = [c0, c1, c2, c3, c4, c5] ∧
      write hwScenario = some
        ({ hwScenario with prev_joint_velocity_command_ := limited },
          [DriverCall.setSpeed c0 c1 c2 c3 c4 c5 (hwScenario.max_vel_change_ * 125)]) :=
  have hd : 0 < hwScenario.max_vel_change_ := by
    show (0 : ℚ) < 12 / 100
    norm_num
  ⟨rfl, by decide, hd, write_velocity_mode.1 hwScenario 6 rfl rfl rfl (by decide) hd⟩

/-- C7: position-mode write. With the position flag set and the velocity flag clear,
`write` issues exactly one `servoj` call carrying `joint_position_command_` as it is, no
`setSpeed` call, and hands the object back unchanged. -/
theorem write_position_mode (hw : AuboHardwareInterface)
    (hpos : hw.position_interface_running_ = true)
    (hvel : hw.velocity_interface_running_ = false) :
    write hw = some (hw, [DriverCall.servoj hw.joint_position_command_]) := by
  simp [write, hpos, hvel]

/-- Witness for C7: the six-joint object in position mode. -/
theorem write_position_mode_witness :
    write hwPos = some (hwPos, [DriverCall.servoj hwPos.joint_position_command_]) :=
  write_position_mode hwPos rfl rfl

/-- C8: idle write. With both mode flags clear, `write` issues no driver call and
hands the object back unchanged. -/
theorem write_idle (hw : AuboHardwareInterface)
    (hpos : hw.position_interface_running_ = false)
    (hvel : hw.velocity_interface_running_ = false) :
    write hw = some (hw, []) := by
  simp [write, hpos, hvel]

/-- Witness for C8: the freshly initialised six-joint object. -/
theorem write_idle_witness : write hw6 = some (hw6, []) :=
  write_idle hw6 rfl rfl

/-- C9: `write` reads the mode and never changes it. Whenever the indexing of `write`
stays in range (always outside velocity mode; in velocity mode when
`prev_joint_velocity_command_` is at least as long as `joint_velocity_command_` and there
are at least six entries) `write` returns; and whenever it returns, both mode flags and
`max_vel_change_` are as before and at most one driver call was issued: one `setSpeed`
when the velocity flag is set, else one `servoj` when the position flag is set, else
none. -/
theorem write_keeps_mode (hw : AuboHardwareInterface) :
    ((hw.velocity_interface_running_ = true →
        hw.joint_velocity_command_.length ≤ hw.prev_joint_velocity_command_.length ∧
        6 ≤ hw.joint_velocity_command_.length) →
      (write hw).isSome = true) ∧
    ∀ (hw' : AuboHardwareInterface) (calls : List DriverCall),
      write hw = some (hw', calls) →
      hw'.velocity_interface_running_ = hw.velocity_interface_running_ ∧
      hw'.position_interface_running_ = hw.position_interface_running_ ∧
      hw'.max_vel_change_ = hw.max_vel_change_ ∧
      calls.length ≤ 1 ∧
      (hw.velocity_interface_running_ = true →
        ∃ c0 c1 c2 c3 c4 c5,
          calls = [DriverCall.setSpeed c0 c1 c2 c3 c4 c5 (hw.max_vel_change_ * 125)]) ∧
      (hw.velocity_interface_running_ = false → hw.position_interface_running_ = true →
        calls = [DriverCall.servoj hw.joint_position_command_]) ∧
      (hw.velocity_interface_running_ = false → hw.position_interface_running_ = false →
        calls = []) := by
  constructor
  · intro hdef
    cases hv : hw.velocity_interface_running_
    · cases hp : hw.position_interface_running_ <;> simp [write, hv, hp]
    · obtain ⟨hlen, hsix⟩ := hdef hv
      obtain ⟨c0, c1, c2, c3, c4, c5, _, hwrite⟩ := write_velocity_eq hw hv hlen hsix
      rw [hwrite]
      rfl
  · intro hw' calls h
    cases hv : hw.velocity_interface_running_
    · cases hp : hw.position_interface_running_
      · simp only [write, hv, hp, Bool.false_eq_true, if_false, Option.some.injEq,
          Prod.mk.injEq] at h
        obtain ⟨rfl, rfl⟩ := h
        simp [hv, hp]
      · simp only [write, hv, hp, Bool.false_eq_true, if_false, if_true, Option.some.injEq,
          Prod.mk.injEq] at h
        obtain ⟨rfl, rfl⟩ := h
        simp [hv, hp]
    · unfold write at h
      rw [if_pos hv] at h
      split at h
      · exact absurd h (by simp)
      · split at h
        · simp only [Option.some.injEq, Prod.mk.injEq] at h
          obtain ⟨rfl, rfl⟩ := h
          simp [hv]
        · exact absurd h (by simp)

/-- Witness for C9: the six-joint scenario in velocity mode. -/
theorem write_keeps_mode_witness :
    (write hwScenario).isSome = true ∧
    ∀ (hw' : AuboHardwareInterface) (calls : List DriverCall),
      write hwScenario = some (hw', calls) →
      hw'.velocity_interface_running_ = hwScenario.velocity_interface_running_ ∧
      hw'.position_interface_running_ = hwScenario.position_interface_running_ ∧
      hw'.max_vel_change_ = hwScenario.max_vel_change_ ∧
      calls.length ≤ 1 ∧
      (hwScenario.velocity_interface_running_ = true →
        ∃ c0 c1 c2 c3 c4 c5,
          calls = [DriverCall.setSpeed c0 c1 c2 c3 c4 c5 (hwScenario.max_vel_change_ * 125)]) ∧
      (hwScenario.velocity_interface_running_ = false →
        hwScenario.position_interface_running_ = true →
        calls = [DriverCall.servoj hwScenario.joint_position_command_]) ∧
      (hwScenario.velocity_interface_running_ = false →
        hwScenario.position_interface_running_ = false →
        calls = []) :=
  ⟨(write_keeps_mode hwScenario).1 (fun _ => ⟨by decide, by decide⟩),
    (write_keeps_mode hwScenario).2⟩

/-! ## Lemmas on `doSwitch`: whole object and driver calls -/

theorem doSwitchStop_fold_state (stop_list : List ControllerInfo)
    (acc : AuboHardwareInterface × List DriverCall) :
    (stop_list.foldl doSwitchStop acc).1 =
      { acc.1 with
        velocity_interface_running_ :=
          (acc.1.velocity_interface_running_ && stopListError velocityType stop_list)
        position_interface_running_ :=
          (acc.1.position_interface_running_ && stopListError positionType stop_list) } := by
  induction stop_list generalizing acc with
  | nil => simp [stopListError]
  | cons c rest ih =>
    rw [List.foldl_cons, ih]
    by_cases hv : c.type = velocityType
    · have hp : c.type ≠ positionType :=
        fun h => velocityType_ne_positionType (hv.symm.trans h)
      simp [doSwitchStop, stopListError, hv, velocityType_ne_positionType]
    · by_cases hp : c.type = positionType <;>
        simp [doSwitchStop, stopListError, hv, hp, velocityType_ne_positionType.symm]

theorem doSwitchStart_fold_state (start_list : List ControllerInfo)
    (acc : AuboHardwareInterface × List DriverCall) :
    (start_list.foldl doSwitchStart acc).1 =
      { acc.1 with
        velocity_interface_running_ :=
          (acc.1.velocity_interface_running_ || !stopListError velocityType start_list)
        position_interface_running_ :=
          (acc.1.position_interface_running_ || !stopListError positionType start_list) } := by
  induction start_list generalizing acc with
  | nil => simp [stopListError]
  | cons c rest ih =>
    rw [List.foldl_cons, ih]
    by_cases hv : c.type = velocityType
    · have hp : c.type ≠ positionType :=
        fun h => velocityType_ne_positionType (hv.symm.trans h)
      simp [doSwitchStart, stopListError, hv, velocityType_ne_positionType]
    · by_cases hp : c.type = positionType <;>
        simp [doSwitchStart, stopListError, hv, hp, velocityType_ne_positionType.symm]

theorem doSwitchStop_fold_calls (stop_list : List ControllerInfo)
    (acc : AuboHardwareInterface × List DriverCall) :
    (stop_list.foldl doSwitchStop acc).2 =
      acc.2 ++ (stop_list.filter (fun c => decide (c.type = positionType))).map
        (fun _ => DriverCall.closeServo []) := by
  induction stop_list generalizing acc with
  | nil => simp
  | cons c rest ih =>
    rw [List.foldl_cons, ih]
    by_cases hp : c.type = positionType <;> simp [doSwitchStop, hp]

theorem doSwitchStart_fold_calls (start_list : List ControllerInfo)
    (acc : AuboHardwareInterface × List DriverCall) :
    (start_list.foldl doSwitchStart acc).2 =
      acc.2 ++ (start_list.filter (fun c => decide (c.type = positionType))).map
        (fun _ => DriverCall.openServo) := by
  induction start_list generalizing acc with
  | nil => simp
  | cons c rest ih =>
    rw [List.foldl_cons, ih]
    by_cases hp : c.type = positionType <;> simp [doSwitchStart, hp]

theorem stopListError_eq_not_any (ty : String) (l : List ControllerInfo) :
    stopListError ty l = !l.any (fun c => decide (c.type = ty)) := by
  induction l with
  | nil => simp [stopListError]
  | cons c rest ih =>
    by_cases h : c.type = ty <;> simp [stopListError, h, ih]

theorem stopListError_filter (ty : String) (p : ControllerInfo → Bool)
    (l : List ControllerInfo) (hp : ∀ c, c.type = ty → p c = true) :
    stopListError ty (l.filter p) = stopListError ty l := by
  induction l with
  | nil => simp
  | cons c rest ih =>
    by_cases h : c.type = ty
    · simp [List.filter, hp c h, stopListError, h]
    · cases hpc : p c <;> simp [List.filter, hpc, stopListError, h, ih]

/-! ## Mode arbiter: further settled properties -/

/-- C11: driver calls of `doSwitch`. The calls issued are one `closeServo` for each
position descriptor of the stop list, then one `openServo` for each position descriptor
of the start list, and nothing else. -/
theorem doSwitch_driver_calls (hw : AuboHardwareInterface)
    (start_list stop_list : List ControllerInfo) :
    (doSwitch hw start_list stop_list).2 =
      (stop_list.filter (fun c => decide (c.type = positionType))).map
          (fun _ => DriverCall.closeServo [])
        ++ (start_list.filter (fun c => decide (c.type = positionType))).map
          (fun _ => DriverCall.openServo) := by
  rw [doSwitch, doSwitchStart_fold_calls, doSwitchStop_fold_calls]
  simp

theorem canSwitch_filter_start (hw : AuboHardwareInterface)
    (start_list stop_list : List ControllerInfo) :
    canSwitch hw (start_list.filter isModeTagged) stop_list =
      canSwitch hw start_list stop_list := by
  induction start_list with
  | nil => rfl
  | cons c rest ih =>
    by_cases hv : c.type = velocityType
    · have ht : isModeTagged c = true := by simp [isModeTagged, hv]
      rw [List.filter_cons_of_pos ht]
      simp only [canSwitch, hv, if_true, ih]
    · by_cases hp : c.type = positionType
      · have ht : isModeTagged c = true := by simp [isModeTagged, hp]
        rw [List.filter_cons_of_pos ht]
        simp only [canSwitch, hv, hp, if_true, if_false, ih]
      · have ht : ¬ (isModeTagged c = true) := by simp [isModeTagged, hv, hp]
        rw [List.filter_cons_of_neg ht, ih]
        simp [canSwitch, hv, hp]

theorem canSwitch_congr_stop (hw : AuboHardwareInterface)
    (start_list stop1 stop2 : List ControllerInfo)
    (hv : stopListError velocityType stop1 = stopListError velocityType stop2)
    (hp : stopListError positionType stop1 = stopListError positionType stop2) :
    canSwitch hw start_list stop1 = canSwitch hw start_list stop2 := by
  rw [Bool.eq_iff_iff, canSwitch_eq_true_iff, canSwitch_eq_true_iff, hv, hp]

/-- C12: untagged descriptors are ignored by `canSwitch`. Removing every descriptor that
is neither a velocity nor a position descriptor from both lists does not change the
result, and a start list with no tagged descriptor (the empty list included) is
admitted in every state with every stop list. -/
theorem canSwitch_ignores_untagged :
    (∀ (hw : AuboHardwareInterface) (start_list stop_list : List ControllerInfo),
      canSwitch hw (start_list.filter isModeTagged) (stop_list.filter isModeTagged) =
        canSwitch hw start_list stop_list) ∧
    (∀ (hw : AuboHardwareInterface) (stop_list : List ControllerInfo),
      canSwitch hw [] stop_list = true) ∧
    (∀ (hw : AuboHardwareInterface) (start_list stop_list : List ControllerInfo),
      (∀ d ∈ start_list, d.type ≠ velocityType ∧ d.type ≠ positionType) →
      canSwitch hw start_list stop_list = true) := by
  refine ⟨?_, ?_, ?_⟩
  · intro hw start_list stop_list
    rw [canSwitch_filter_start]
    apply canSwitch_congr_stop
    · exact stopListError_filter _ _ _ (fun c h => by simp [isModeTagged, h])
    · exact stopListError_filter _ _ _ (fun c h => by simp [isModeTagged, h])
  · intro hw stop_list
    rfl
  · intro hw start_list stop_list h
    rw [canSwitch_eq_true_iff]
    intro d hd
    exact ⟨fun hv => absurd hv (h d hd).1, fun hp => absurd hp (h d hd).2⟩

/-- Witness for C12: position mode, a start list holding only a joint state controller. -/
theorem canSwitch_ignores_untagged_witness :
    (∀ d ∈ [otherController], d.type ≠ velocityType ∧ d.type ≠ positionType) ∧
    canSwitch hwPos [otherController] [velController] = true :=
  have h : ∀ d ∈ [otherController], d.type ≠ velocityType ∧ d.type ≠ positionType := by
    decide
  ⟨h, canSwitch_ignores_untagged.2.2 hwPos [otherController] [velController] h⟩

/-- C13, as stated, fails: in position mode the velocity mode is inactive, yet a start
list with one velocity descriptor and an empty stop list is rejected. -/
theorem stop_alone_inactive_type_rejected :
    hwPos.velocity_interface_running_ = false ∧
    (∀ d ∈ [velController],
      (d.type = velocityType → hwPos.velocity_interface_running_ = false) ∧
      (d.type = positionType → hwPos.position_interface_running_ = false)) ∧
    canSwitch hwPos [velController] [] = false := by
  decide

/-- C13, amended: `canSwitch` returns true when the start list is empty, or when every
tagged descriptor of the start list is tagged with a mode whose flag is clear and, if the
flag of the other mode is set, the stop list holds a descriptor of that other mode. -/
theorem canSwitch_stop_alone (hw : AuboHardwareInterface)
    (start_list stop_list : List ControllerInfo)
    (h : start_list = [] ∨
      ((∀ d ∈ start_list,
          (d.type = velocityType → hw.velocity_interface_running_ = false) ∧
          (d.type = positionType → hw.position_interface_running_ = false)) ∧
        (∀ d ∈ start_list,
          (d.type = velocityType → hw.position_interface_running_ = true →
            ∃ e ∈ stop_list, e.type = positionType) ∧
          (d.type = positionType → hw.velocity_interface_running_ = true →
            ∃ e ∈ stop_list, e.type = velocityType)))) :
    canSwitch hw start_list stop_list = true := by
  rcases h with rfl | ⟨hin, hother⟩
  · rfl
  · rw [canSwitch_eq_true_iff]
    intro d hd
    refine ⟨fun hv => ⟨(hin d hd).1 hv, fun hp => ?_⟩, fun hp => ⟨(hin d hd).2 hp, fun hv => ?_⟩⟩
    · exact (stopListError_eq_false_iff _ _).mpr ((hother d hd).1 hv hp)
    · exact (stopListError_eq_false_iff _ _).mpr ((hother d hd).2 hp hv)

/-- Witness for C13 (amended): position mode, starting the velocity controller while the
position controller is in the stop list. -/
theorem canSwitch_stop_alone_witness :
    canSwitch hwPos [velController] [posController] = true :=
  canSwitch_stop_alone hwPos [velController] [posController]
    (Or.inr ⟨by decide, by decide⟩)

/-- C14: start position from idle. With both flags clear, the request that starts one
position descriptor and stops nothing is admitted; `doSwitch` then leaves the position
flag set, the velocity flag clear, and issues exactly one `openServo` and no
`closeServo`. -/
theorem start_position_from_idle (hw : AuboHardwareInterface) (d : ControllerInfo)
    (hv : hw.velocity_interface_running_ = false)
    (hp : hw.position_interface_running_ = false)
    (hd : d.type = positionType) :
    canSwitch hw [d] [] = true ∧
    (doSwitch hw [d] []).1.position_interface_running_ = true ∧
    (doSwitch hw [d] []).1.velocity_interface_running_ = false ∧
    (doSwitch hw [d] []).2 = [DriverCall.openServo] := by
  have hne := velocityType_ne_positionType
  refine ⟨?_, ?_, ?_, ?_⟩
  · rw [canSwitch_cons]
    simp [hd, hv, hp, hne.symm, canSwitch]
  · simp [doSwitch, doSwitchStart, hd]
  · simp [doSwitch, doSwitchStart, hd, hne.symm, hv]
  · simp [doSwitch, doSwitchStart, hd]

/-- Witness for C14: the freshly initialised six-joint object. -/
theorem start_position_from_idle_witness :
    canSwitch hw6 [posController] [] = true ∧
    (doSwitch hw6 [posController] []).1.position_interface_running_ = true ∧
    (doSwitch hw6 [posController] []).1.velocity_interface_running_ = false ∧
    (doSwitch hw6 [posController] []).2 = [DriverCall.openServo] :=
  start_position_from_idle hw6 posController rfl rfl rfl

/-- C17: commit closed form of `doSwitch`, with or without a preceding `canSwitch`. The
object afterwards is the object before with the velocity flag replaced by
"start list has a velocity descriptor, or the flag was set and the stop list has no
velocity descriptor", and the position flag likewise; every other member is untouched,
and with no tagged descriptor in either list the object is unchanged. -/
theorem doSwitch_commit :
    (∀ (hw : AuboHardwareInterface) (start_list stop_list : List ControllerInfo),
      (doSwitch hw start_list stop_list).1 =
        { hw with
          velocity_interface_running_ :=
            (start_list.any (fun c => decide (c.type = velocityType)) ||
              (hw.velocity_interface_running_ &&
                !stop_list.any (fun c => decide (c.type = velocityType))))
          position_interface_running_ :=
            (start_list.any (fun c => decide (c.type = positionType)) ||
              (hw.position_interface_running_ &&
                !stop_list.any (fun c => decide (c.type = positionType)))) }) ∧
    (∀ (hw : AuboHardwareInterface) (start_list stop_list : List ControllerInfo),
      (∀ d ∈ start_list, d.type ≠ velocityType ∧ d.type ≠ positionType) →
      (∀ e ∈ stop_list, e.type ≠ velocityType ∧ e.type ≠ positionType) →
      (doSwitch hw start_list stop_list).1 = hw) := by
  constructor
  · intro hw start_list stop_list
    rw [doSwitch, doSwitchStart_fold_state, doSwitchStop_fold_state]
    simp only [stopListError_eq_not_any, Bool.not_not]
    rw [Bool.or_comm (hw.velocity_interface_running_ && _),
      Bool.or_comm (hw.position_interface_running_ && _)]
  · intro hw start_list stop_list hstart hstop
    have h1 : stopListError velocityType start_list = true :=
      (stopListError_eq_true_iff _ _).mpr (fun d hd => (hstart d hd).1)
    have h2 : stopListError positionType start_list = true :=
      (stopListError_eq_true_iff _ _).mpr (fun d hd => (hstart d hd).2)
    have h3 : stopListError velocityType stop_list = true :=
      (stopListError_eq_true_iff _ _).mpr (fun d hd => (hstop d hd).1)
    have h4 : stopListError positionType stop_list = true :=
      (stopListError_eq_true_iff _ _).mpr (fun d hd => (hstop d hd).2)
    rw [doSwitch, doSwitchStart_fold_state, doSwitchStop_fold_state]
    simp [h1, h2, h3, h4]

/-- Witness for C17: position mode, only a joint state controller started and stopped. -/
theorem doSwitch_commit_witness :
    (doSwitch hwPos [otherController] [otherController]).1 = hwPos :=
  doSwitch_commit.2 hwPos [otherController] [otherController] (by decide) (by decide)

/-- C18: mutual exclusion for single-mode requests. From a state whose flags are not both
set, for a start list that does not hold both a position and a velocity descriptor and
that `canSwitch` admits, the flags are not both set after any number of processed
stop descriptors, after any number of processed start descriptors (following the whole
stop list), nor at the end of `doSwitch`. -/
theorem single_mode_mutual_exclusion (hw : AuboHardwareInterface)
    (start_list stop_list : List ControllerInfo)
    (hinit : ¬ (hw.velocity_interface_running_ = true ∧
      hw.position_interface_running_ = true))
    (hsingle : ¬ ((∃ d ∈ start_list, d.type = velocityType) ∧
      (∃ d ∈ start_list, d.type = positionType)))
    (hcan : canSwitch hw start_list stop_list = true) :
    (∀ s1 s2 : List ControllerInfo, stop_list = s1 ++ s2 →
      ¬ ((s1.foldl doSwitchStop (hw, [])).1.velocity_interface_running_ = true ∧
        (s1.foldl doSwitchStop (hw, [])).1.position_interface_running_ = true)) ∧
    (∀ t1 t2 : List ControllerInfo, start_list = t1 ++ t2 →
      ¬ ((t1.foldl doSwitchStart
            (stop_list.foldl doSwitchStop (hw, []))).1.velocity_interface_running_ = true ∧
        (t1.foldl doSwitchStart
            (stop_list.foldl doSwitchStop (hw, []))).1.position_interface_running_ = true)) ∧
    ¬ ((doSwitch hw start_list stop_list).1.velocity_interface_running_ = true ∧
      (doSwitch hw start_list stop_list).1.position_interface_running_ = true) := by
  have hstart : ∀ t1 t2 : List ControllerInfo, start_list = t1 ++ t2 →
      ¬ ((t1.foldl doSwitchStart
            (stop_list.foldl doSwitchStop (hw, []))).1.velocity_interface_running_ = true ∧
        (t1.foldl doSwitchStart
            (stop_list.foldl doSwitchStop (hw, []))).1.position_interface_running_ = true) := by
    intro t1 t2 ht
    rw [doSwitchStart_fold_velocity, doSwitchStart_fold_position,
      doSwitchStop_fold_velocity, doSwitchStop_fold_position]
    rw [canSwitch_eq_true_iff] at hcan
    simp only [Bool.or_eq_true, Bool.and_eq_true, Bool.not_eq_true']
    rintro ⟨hvel, hpos⟩
    have hmem : ∀ d ∈ t1, d ∈ start_list := fun d hd => by
      rw [ht]; exact List.mem_append_left _ hd
    rcases hvel with ⟨hv, hsv⟩ | hv1
    · rcases hpos with ⟨hp, _⟩ | hp1
      · exact hinit ⟨hv, hp⟩
      · obtain ⟨d, hd, hty⟩ := (stopListError_eq_false_iff _ _).mp hp1
        have := ((hcan d (hmem d hd)).2 hty).2 hv
        rw [hsv] at this
        exact absurd this (by decide)
    · obtain ⟨d, hd, hty⟩ := (stopListError_eq_false_iff _ _).mp hv1
      rcases hpos with ⟨hp, hsp⟩ | hp1
      · have := ((hcan d (hmem d hd)).1 hty).2 hp
        rw [hsp] at this
        exact absurd this (by decide)
      · obtain ⟨e, he, hety⟩ := (stopListError_eq_false_iff _ _).mp hp1
        exact hsingle ⟨⟨d, hmem d hd, hty⟩, ⟨e, hmem e he, hety⟩⟩
  refine ⟨?_, hstart, ?_⟩
  · intro s1 s2 _
    rw [doSwitchStop_fold_velocity, doSwitchStop_fold_position]
    simp only [Bool.and_eq_true]
    rintro ⟨⟨hv, _⟩, ⟨hp, _⟩⟩
    exact hinit ⟨hv, hp⟩
  · exact hstart start_list [] (List.append_nil _).symm

/-- Witness for C18: the swap from position mode to velocity mode. -/
theorem single_mode_mutual_exclusion_witness :
    ¬ ((doSwitch hwPos [velController] [posController]).1.velocity_interface_running_ = true ∧
      (doSwitch hwPos [velController] [posController]).1.position_interface_running_ = true) :=
  (single_mode_mutual_exclusion hwPos [velController] [posController]
    (by decide) (by decide) (by decide)).2.2

/-! ## Lemmas on `read` -/

theorem set_take_append_drop (src dst : List ℚ) (k : Nat) (x : ℚ)
    (hx : src[k]? = some x) (hk : k < dst.length) :
    (src.take k ++ dst.drop k).set k x = src.take (k + 1) ++ dst.drop (k + 1) := by
  induction k generalizing src dst with
  | zero =>
    cases src with
    | nil => simp at hx
    | cons a s =>
      cases dst with
      | nil => simp at hk
      | cons b d =>
        simp at hx
        simp [hx]
  | succ k ih =>
    cases src with
    | nil => simp at hx
    | cons a s =>
      cases dst with
      | nil => simp at hk
      | cons b d =>
        simp at hx hk
        simp [ih s d hx hk]

theorem readJointLoop_upto (pos vel current : List ℚ) (hw : AuboHardwareInterface) :
    ∀ k, k ≤ pos.length → k ≤ vel.length → k ≤ current.length →
      k ≤ hw.joint_position_.length → k ≤ hw.joint_velocity_.length →
      k ≤ hw.joint_effort_.length →
      (List.range k).foldlM (readJointStep pos vel current) hw =
        some { hw with
          joint_position_ := pos.take k ++ hw.joint_position_.drop k
          joint_velocity_ := vel.take k ++ hw.joint_velocity_.drop k
          joint_effort_ := current.take k ++ hw.joint_effort_.drop k } := by
  intro k
  induction k with
  | zero => intros; simp
  | succ k ih =>
    intro h1 h2 h3 h4 h5 h6
    rw [List.range_succ, List.foldlM_append,
      ih (by omega) (by omega) (by omega) (by omega) (by omega) (by omega)]
    have e1 : pos[k]? = some pos[k] := List.getElem?_eq_getElem (by omega)
    have e2 : vel[k]? = some vel[k] := List.getElem?_eq_getElem (by omega)
    have e3 : current[k]? = some current[k] := List.getElem?_eq_getElem (by omega)
    have l1 : k < (pos.take k ++ hw.joint_position_.drop k).length := by
      simp; omega
    have l2 : k < (vel.take k ++ hw.joint_velocity_.drop k).length := by
      simp; omega
    have l3 : k < (current.take k ++ hw.joint_effort_.drop k).length := by
      simp; omega
    simp only [Option.some_bind, List.foldlM_cons, List.foldlM_nil, readJointStep, e1, e2, e3,
      l1, l2, l3, and_self, if_true, Option.bind_eq_bind, Option.pure_def, Option.bind_some]
    rw [set_take_append_drop pos _ k _ e1 (by omega),
      set_take_append_drop vel _ k _ e2 (by omega),
      set_take_append_drop current _ k _ e3 (by omega)]

theorem readWrenchLoop_eq (tcp : List ℚ) (hw : AuboHardwareInterface)
    (hf : hw.robot_force_.length = 3) (ht : hw.robot_torque_.length = 3)
    (htcp : 6 ≤ tcp.length) :
    (List.range 3).foldlM (readWrenchStep tcp) hw =
      some { hw with
        robot_force_ := tcp.take 3
        robot_torque_ := (tcp.drop 3).take 3 } := by
  obtain ⟨a, b, c, d, e, f, rest, rfl⟩ := exists_six tcp htcp
  obtain ⟨f0, f1, f2, hfe⟩ : ∃ f0 f1 f2, hw.robot_force_ = [f0, f1, f2] := by
    match hw.robot_force_, hf with
    | [x, y, z], _ => exact ⟨x, y, z, rfl⟩
  obtain ⟨t0, t1, t2, hte⟩ : ∃ t0 t1 t2, hw.robot_torque_ = [t0, t1, t2] := by
    match hw.robot_torque_, ht with
    | [x, y, z], _ => exact ⟨x, y, z, rfl⟩
  have hr : List.range 3 = [0, 1, 2] := rfl
  simp [hr, readWrenchStep, hfe, hte]

/-- Closed form of `read` on an object whose three state vectors have `num_joints_`
entries and whose wrench arrays have three, for telemetry that is long enough. -/
theorem read_eq (hw : AuboHardwareInterface) (pos vel current tcp : List ℚ)
    (hjp : hw.joint_position_.length = hw.num_joints_)
    (hjv : hw.joint_velocity_.length = hw.num_joints_)
    (hje : hw.joint_effort_.length = hw.num_joints_)
    (hf : hw.robot_force_.length = 3) (ht : hw.robot_torque_.length = 3)
    (hpos : hw.num_joints_ ≤ pos.length) (hvel : hw.num_joints_ ≤ vel.length)
    (hcur : hw.num_joints_ ≤ current.length) (htcp : 6 ≤ tcp.length) :
    read hw pos vel current tcp =
      some { hw with
        joint_position_ := pos.take hw.num_joints_
        joint_velocity_ := vel.take hw.num_joints_
        joint_effort_ := current.take hw.num_joints_
        robot_force_ := tcp.take 3
        robot_torque_ := (tcp.drop 3).take 3 } := by
  unfold read
  rw [readJointLoop_upto pos vel current hw hw.num_joints_ hpos hvel hcur
    (by omega) (by omega) (by omega)]
  simp only []
  refine (readWrenchLoop_eq tcp _ ?_ ?_ htcp).trans ?_
  · exact hf
  · exact ht
  have d1 : hw.joint_position_.drop hw.num_joints_ = [] := by
    rw [List.drop_eq_nil_iff]; omega
  have d2 : hw.joint_velocity_.drop hw.num_joints_ = [] := by
    rw [List.drop_eq_nil_iff]; omega
  have d3 : hw.joint_effort_.drop hw.num_joints_ = [] := by
    rw [List.drop_eq_nil_iff]; omega
  simp [d1, d2, d3]

/-! ## Telemetry copy: settled property -/

/-- C15: `read` is a snapshot copy. On an object with `N` joints and telemetry with at
least `N` positions, velocities and currents and at least six wrench entries, `read`
returns; afterwards the first `N` entries of position, velocity and effort are those of
the telemetry, force is wrench entries 0..2 and torque entries 3..5, every other member
(command buffers, previous command, rate limit, mode flags) is as before, and a second
`read` with the same telemetry returns the same object. -/
theorem read_snapshot (hw : AuboHardwareInterface) (N : Nat)
    (pos vel current tcp : List ℚ)
    (hN : hw.num_joints_ = N)
    (hjp : hw.joint_position_.length = N)
    (hjv : hw.joint_velocity_.length = N)
    (hje : hw.joint_effort_.length = N)
    (hf : hw.robot_force_.length = 3) (ht : hw.robot_torque_.length = 3)
    (hpos : N ≤ pos.length) (hvel : N ≤ vel.length)
    (hcur : N ≤ current.length) (htcp : 6 ≤ tcp.length) :
    ∃ hw1 : AuboHardwareInterface,
      read hw pos vel current tcp = some hw1 ∧
      (∀ i, i < N →
        hw1.joint_position_[i]? = pos[i]? ∧
        hw1.joint_velocity_[i]? = vel[i]? ∧
        hw1.joint_effort_[i]? = current[i]?) ∧
      (∀ j, j < 3 →
        hw1.robot_force_[j]? = tcp[j]? ∧ hw1.robot_torque_[j]? = tcp[j + 3]?) ∧
      hw1 = { hw with
        joint_position_ := hw1.joint_position_
        joint_velocity_ := hw1.joint_velocity_
        joint_effort_ := hw1.joint_effort_
        robot_force_ := hw1.robot_force_
        robot_torque_ := hw1.robot_torque_ } ∧
      hw1.joint_position_command_ = hw.joint_position_command_ ∧
      hw1.joint_velocity_command_ = hw.joint_velocity_command_ ∧
      hw1.prev_joint_velocity_command_ = hw.prev_joint_velocity_command_ ∧
      hw1.max_vel_change_ = hw.max_vel_change_ ∧
      hw1.velocity_interface_running_ = hw.velocity_interface_running_ ∧
      hw1.position_interface_running_ = hw.position_interface_running_ ∧
      read hw1 pos vel current tcp = some hw1 := by
  subst hN
  have h1 := read_eq hw pos vel current tcp hjp hjv hje hf ht hpos hvel hcur htcp
  refine ⟨_, h1, ?_, ?_, rfl, rfl, rfl, rfl, rfl, rfl, rfl, ?_⟩
  · intro i hi
    simp only [List.getElem?_take, hi, if_true, and_self]
  · intro j hj
    simp only [List.getElem?_take, hj, if_true, List.getElem?_drop, true_and]
    rw [Nat.add_comm]
  · refine (read_eq _ pos vel current tcp ?_ ?_ ?_ ?_ ?_ ?_ ?_ ?_ htcp).trans ?_
    · exact List.length_take_of_le hpos
    · exact List.length_take_of_le hvel
    · exact List.length_take_of_le hcur
    · exact List.length_take_of_le (by omega)
    · exact List.length_take_of_le (by rw [List.length_drop]; omega)
    · exact hpos
    · exact hvel
    · exact hcur
    · rfl

/-- Witness for C15: the six-joint object and the example telemetry. -/
theorem read_snapshot_witness :
    ∃ hw1 : AuboHardwareInterface,
      read hw6 telemetryPos telemetryVel telemetryCurrent telemetryTcp = some hw1 ∧
      hw1.joint_position_ = [1, 2, 3, 4, 5, 6] ∧
      hw1.robot_force_ = [10, 20, 30] ∧ hw1.robot_torque_ = [40, 50, 60] ∧
      read hw1 telemetryPos telemetryVel telemetryCurrent telemetryTcp = some hw1 := by
  obtain ⟨hw1, hread, hj, hw, _, _, _, _, _, _, _, hagain⟩ :=
    read_snapshot hw6 6 telemetryPos telemetryVel telemetryCurrent telemetryTcp
      rfl rfl rfl rfl rfl rfl (by decide) (by decide) (by decide) (by decide)
  refine ⟨hw1, hread, ?_, ?_, ?_, hagain⟩
  · have h := read_eq hw6 telemetryPos telemetryVel telemetryCurrent telemetryTcp
      rfl rfl rfl rfl rfl (by decide) (by decide) (by decide) (by decide)
    rw [hread] at h
    rw [Option.some.inj h]
    rfl
  · have h := read_eq hw6 telemetryPos telemetryVel telemetryCurrent telemetryTcp
      rfl rfl rfl rfl rfl (by decide) (by decide) (by decide) (by decide)
    rw [hread] at h
    rw [Option.some.inj h]
    rfl
  · have h := read_eq hw6 telemetryPos telemetryVel telemetryCurrent telemetryTcp
      rfl rfl rfl rfl rfl (by decide) (by decide) (by decide) (by decide)
    rw [hread] at h
    rw [Option.some.inj h]
    rfl

/-! ## Lemmas on repeated `write` -/

theorem limit_of_le (r v d : ℚ) (hd : 0 < d) (h : v ≤ r) : limit r v d = min r (v + d) := by
  unfold limit
  split_ifs with h1 h2
  · rw [min_eq_right (le_of_lt h1)]
  · linarith
  · rw [min_eq_left (by linarith)]

theorem limit_of_ge (r v d : ℚ) (hd : 0 < d) (h : r ≤ v) : limit r v d = max r (v - d) := by
  unfold limit
  split_ifs with h1 h2
  · linarith
  · rw [max_eq_right (le_of_lt h2)]
  · rw [max_eq_left (by linarith)]

theorem limitIter_of_le (r d : ℚ) (hd : 0 < d) (k : Nat) (v : ℚ) (h : v ≤ r) :
    limitIter r d k v = min r (v + k * d) := by
  induction k generalizing v with
  | zero => simp [limitIter, h]
  | succ k ih =>
    have hk : (0 : ℚ) ≤ k * d := mul_nonneg (Nat.cast_nonneg k) (le_of_lt hd)
    rw [limitIter, limit_of_le r v d hd h, ih _ (min_le_left _ _)]
    push_cast
    rcases le_total r (v + d) with h1 | h1
    · rw [min_eq_left h1, min_eq_left (by linarith), min_eq_left (by linarith)]
    · rw [min_eq_right h1]
      congr 1
      ring

theorem limitIter_of_ge (r d : ℚ) (hd : 0 < d) (k : Nat) (v : ℚ) (h : r ≤ v) :
    limitIter r d k v = max r (v - k * d) := by
  induction k generalizing v with
  | zero => simp [limitIter, h]
  | succ k ih =>
    have hk : (0 : ℚ) ≤ k * d := mul_nonneg (Nat.cast_nonneg k) (le_of_lt hd)
    rw [limitIter, limit_of_ge r v d hd h, ih _ (le_max_left _ _)]
    push_cast
    rcases le_total (v - d) r with h1 | h1
    · rw [max_eq_left h1, max_eq_left (by linarith), max_eq_left (by linarith)]
    · rw [max_eq_right h1]
      congr 1
      ring

theorem limitIter_succ (r d : ℚ) (k : Nat) (v : ℚ) :
    limitIter r d (k + 1) v = limit r (limitIter r d k v) d := by
  induction k generalizing v with
  | zero => rfl
  | succ k ih => rw [limitIter, ih, limitIter]

theorem zipWith_limitIter (d : ℚ) (k : Nat) (jvc prev : List ℚ) :
    List.zipWith (fun r v => limitIter r d k v) jvc
        (List.zipWith (fun r v => limit r v d) jvc prev) =
      List.zipWith (fun r v => limitIter r d (k + 1) v) jvc prev := by
  induction jvc generalizing prev with
  | nil => simp
  | cons a l ih =>
    cases prev with
    | nil => simp
    | cons b p => simp [limitIter, ih]

/-- Closed form of `k` consecutive `write` calls in velocity mode. -/
theorem writeRepeat_eq (k : Nat) (hw : AuboHardwareInterface)
    (hvel : hw.velocity_interface_running_ = true)
    (hlen : hw.joint_velocity_command_.length = hw.prev_joint_velocity_command_.length)
    (hsix : 6 ≤ hw.joint_velocity_command_.length) :
    ∃ calls : List DriverCall, calls.length = k ∧
      writeRepeat k hw = some
        ({ hw with
            prev_joint_velocity_command_ :=
              List.zipWith (fun r v => limitIter r hw.max_vel_change_ k v)
                hw.joint_velocity_command_ hw.prev_joint_velocity_command_ },
          calls) := by
  induction k generalizing hw with
  | zero =>
    refine ⟨[], rfl, ?_⟩
    have hz : List.zipWith (fun r v => limitIter r hw.max_vel_change_ 0 v)
        hw.joint_velocity_command_ hw.prev_joint_velocity_command_
        = hw.prev_joint_velocity_command_ := by
      apply List.ext_getElem?
      intro j
      rw [List.getElem?_zipWith]
      by_cases hj : j < hw.prev_joint_velocity_command_.length
      · rw [List.getElem?_eq_getElem (show j < hw.joint_velocity_command_.length by omega),
          List.getElem?_eq_getElem hj]
        rfl
      · rw [List.getElem?_eq_none (show hw.prev_joint_velocity_command_.length ≤ j by omega),
          List.getElem?_eq_none (show hw.joint_velocity_command_.length ≤ j by omega)]
    rw [hz]
    rfl
  | succ k ih =>
    obtain ⟨c0, c1, c2, c3, c4, c5, _, hwrite⟩ :=
      write_velocity_eq hw hvel (by omega) hsix
    have hdrop : hw.prev_joint_velocity_command_.drop hw.joint_velocity_command_.length
        = [] := by
      rw [List.drop_eq_nil_iff]; omega
    rw [hdrop, List.append_nil] at hwrite
    obtain ⟨calls, hcalls, hrep⟩ := ih
      { hw with
        prev_joint_velocity_command_ :=
          List.zipWith (fun r v => limit r v hw.max_vel_change_)
            hw.joint_velocity_command_ hw.prev_joint_velocity_command_ }
      hvel (by simp [List.length_zipWith]; omega) hsix
    refine ⟨DriverCall.setSpeed c0 c1 c2 c3 c4 c5 (hw.max_vel_change_ * 125) :: calls,
      by simp [hcalls], ?_⟩
    rw [writeRepeat, hwrite]
    simp only []
    rw [hrep]
    simp only [zipWith_limitIter]
    rfl

theorem limitIter_slew (r v d : ℚ) (hd : 0 < d) (k : Nat) :
    |limitIter r d (k + 1) v - v| ≤ ((k : ℚ) + 1) * d ∧
    min v r ≤ limitIter r d (k + 1) v ∧
    limitIter r d (k + 1) v ≤ max v r ∧
    (v ≤ r → limitIter r d k v ≤ limitIter r d (k + 1) v ∧ limitIter r d (k + 1) v ≤ r) ∧
    (r ≤ v → r ≤ limitIter r d (k + 1) v ∧ limitIter r d (k + 1) v ≤ limitIter r d k v) ∧
    (|r - v| ≤ ((k : ℚ) + 1) * d → limitIter r d (k + 1) v = r) := by
  have hk : (0 : ℚ) ≤ k * d := mul_nonneg (Nat.cast_nonneg k) (le_of_lt hd)
  have hk1 : ((k : ℚ) + 1) * d = k * d + d := by ring
  rw [hk1]
  rcases le_total v r with h | h
  · have e0 := limitIter_of_le r d hd k v h
    have e1 := limitIter_of_le r d hd (k + 1) v h
    push_cast at e1
    rw [hk1] at e1
    rw [e0, e1, min_eq_left h, max_eq_right h]
    generalize (k : ℚ) * d = t at hk ⊢
    refine ⟨?_, ?_, ?_, ?_, ?_, ?_⟩
    · rw [abs_le]
      rcases le_total r (v + (t + d)) with h1 | h1
      · rw [min_eq_left h1]; constructor <;> linarith
      · rw [min_eq_right h1]; constructor <;> linarith
    · exact le_min h (by linarith)
    · exact min_le_left _ _
    · intro _
      exact ⟨min_le_min (le_refl r) (by linarith), min_le_left _ _⟩
    · intro h2
      have hvr : v = r := le_antisymm h h2
      subst hvr
      rw [min_eq_left (by linarith), min_eq_left (by linarith)]
      exact ⟨le_refl _, le_refl _⟩
    · intro h3
      rw [abs_le] at h3
      exact min_eq_left (by linarith [h3.2])
  · have e0 := limitIter_of_ge r d hd k v h
    have e1 := limitIter_of_ge r d hd (k + 1) v h
    push_cast at e1
    rw [hk1] at e1
    rw [e0, e1, min_eq_right h, max_eq_left h]
    generalize (k : ℚ) * d = t at hk ⊢
    refine ⟨?_, ?_, ?_, ?_, ?_, ?_⟩
    · rw [abs_le]
      rcases le_total (v - (t + d)) r with h1 | h1
      · rw [max_eq_left h1]; constructor <;> linarith
      · rw [max_eq_right h1]; constructor <;> linarith
    · exact le_max_left _ _
    · exact max_le h (by linarith)
    · intro h2
      have hvr : v = r := le_antisymm h2 h
      subst hvr
      rw [max_eq_left (by linarith), max_eq_left (by linarith)]
      exact ⟨le_refl _, le_refl _⟩
    · intro _
      exact ⟨le_max_left _ _, max_le_max (le_refl r) (by linarith)⟩
    · intro h3
      rw [abs_le] at h3
      exact max_eq_left (by linarith [h3.1])

/-! ## Rate limiter over several cycles: settled properties -/

/-- C20: multi-cycle slew. In velocity mode with `N ≥ 6` joints, `d = max_vel_change_ > 0`
and the request left unchanged, `k` calls of `write` followed by one more return; the
call number `k + 1` dispatches the first six stored values, and for every joint `i` the
value `c1` stored by call `k + 1` is within `(k + 1) * d` of the initial previous value
`v`, lies between `v` and the request `r`, is no further from `r` than the value `c`
stored by call `k` (on the same side of `r`), and equals `r` once
`|r - v| ≤ (k + 1) * d`. -/
theorem write_slew (hw : AuboHardwareInterface) (N k i : Nat)
    (hvel : hw.velocity_interface_running_ = true)
    (hcmd : hw.joint_velocity_command_.length = N)
    (hprev : hw.prev_joint_velocity_command_.length = N)
    (hN : 6 ≤ N) (hd : 0 < hw.max_vel_change_) (hi : i < N) :
    ∃ (r v c c1 : ℚ) (hwk hwk1 : AuboHardwareInterface) (callsk : List DriverCall)
        (q0 q1 q2 q3 q4 q5 : ℚ),
      hw.joint_velocity_command_[i]? = some r ∧
      hw.prev_joint_velocity_command_[i]? = some v ∧
      writeRepeat k hw = some (hwk, callsk) ∧ callsk.length = k ∧
      write hwk = some
        (hwk1, [DriverCall.setSpeed q0 q1 q2 q3 q4 q5 (hw.max_vel_change_ * 125)]) ∧
      hwk1.prev_joint_velocity_command_.take 6 = [q0, q1, q2, q3, q4, q5] ∧
      hwk.prev_joint_velocity_command_[i]? = some c ∧
      hwk1.prev_joint_velocity_command_[i]? = some c1 ∧
      c = limitIter r hw.max_vel_change_ k v ∧
      c1 = limitIter r hw.max_vel_change_ (k + 1) v ∧
      |c1 - v| ≤ ((k : ℚ) + 1) * hw.max_vel_change_ ∧
      min v r ≤ c1 ∧ c1 ≤ max v r ∧
      (v ≤ r → c ≤ c1 ∧ c1 ≤ r) ∧
      (r ≤ v → r ≤ c1 ∧ c1 ≤ c) ∧
      (|r - v| ≤ ((k : ℚ) + 1) * hw.max_vel_change_ → c1 = r) := by
  have hi1 : i < hw.joint_velocity_command_.length := by omega
  have hi2 : i < hw.prev_joint_velocity_command_.length := by omega
  obtain ⟨callsk, hlen, hrep⟩ := writeRepeat_eq k hw hvel (by omega) (by omega)
  obtain ⟨q0, q1, q2, q3, q4, q5, htake, hwrite⟩ :=
    write_velocity_eq
      { hw with
        prev_joint_velocity_command_ :=
          List.zipWith (fun r v => limitIter r hw.max_vel_change_ k v)
            hw.joint_velocity_command_ hw.prev_joint_velocity_command_ }
      hvel (by simp [List.length_zipWith]; omega)
      (by show 6 ≤ hw.joint_velocity_command_.length; omega)
  have hdrop : (List.zipWith (fun r v => limitIter r hw.max_vel_change_ k v)
      hw.joint_velocity_command_ hw.prev_joint_velocity_command_).drop
        hw.joint_velocity_command_.length = [] := by
    rw [List.drop_eq_nil_iff, List.length_zipWith]; omega
  simp only [hdrop, List.append_nil] at hwrite htake
  have hslew := limitIter_slew hw.joint_velocity_command_[i]
    hw.prev_joint_velocity_command_[i] hw.max_vel_change_ hd k
  refine ⟨hw.joint_velocity_command_[i], hw.prev_joint_velocity_command_[i],
    limitIter hw.joint_velocity_command_[i] hw.max_vel_change_ k
      hw.prev_joint_velocity_command_[i],
    limitIter hw.joint_velocity_command_[i] hw.max_vel_change_ (k + 1)
      hw.prev_joint_velocity_command_[i],
    _, _, callsk, q0, q1, q2, q3, q4, q5,
    List.getElem?_eq_getElem hi1, List.getElem?_eq_getElem hi2, hrep, hlen, hwrite, htake,
    ?_, ?_, rfl, rfl, hslew⟩
  · show (List.zipWith _ _ _)[i]? = _
    rw [List.getElem?_zipWith, List.getElem?_eq_getElem hi1, List.getElem?_eq_getElem hi2]
  · show (List.zipWith _ _ (List.zipWith _ _ _))[i]? = _
    rw [List.getElem?_zipWith, List.getElem?_zipWith, List.getElem?_eq_getElem hi1,
      List.getElem?_eq_getElem hi2]
    show some (limit _ _ _) = _
    rw [← limitIter_succ]

/-- Witness for C20: the six-joint scenario, joint 0, second call. -/
theorem write_slew_witness :
    ∃ (r v c c1 : ℚ) (hwk hwk1 : AuboHardwareInterface) (callsk : List DriverCall)
        (q0 q1 q2 q3 q4 q5 : ℚ),
      hwScenario.joint_velocity_command_[0]? = some r ∧
      hwScenario.prev_joint_velocity_command_[0]? = some v ∧
      writeRepeat 1 hwScenario = some (hwk, callsk) ∧ callsk.length = 1 ∧
      write hwk = some
        (hwk1, [DriverCall.setSpeed q0 q1 q2 q3 q4 q5 (hwScenario.max_vel_change_ * 125)]) ∧
      hwk1.prev_joint_velocity_command_.take 6 = [q0, q1, q2, q3, q4, q5] ∧
      hwk.prev_joint_velocity_command_[0]? = some c ∧
      hwk1.prev_joint_velocity_command_[0]? = some c1 ∧
      c = limitIter r hwScenario.max_vel_change_ 1 v ∧
      c1 = limitIter r hwScenario.max_vel_change_ (1 + 1) v ∧
      |c1 - v| ≤ (((1 : Nat) : ℚ) + 1) * hwScenario.max_vel_change_ ∧
      min v r ≤ c1 ∧ c1 ≤ max v r ∧
      (v ≤ r → c ≤ c1 ∧ c1 ≤ r) ∧
      (r ≤ v → r ≤ c1 ∧ c1 ≤ c) ∧
      (|r - v| ≤ (((1 : Nat) : ℚ) + 1) * hwScenario.max_vel_change_ → c1 = r) :=
  write_slew hwScenario 6 1 0 rfl rfl rfl (by decide)
    (by show (0 : ℚ) < 12 / 100; norm_num) (by decide)

/-- With fewer than six entries the velocity branch of `write` indexes `cmd` outside
its range. -/
theorem write_velocity_none (hw : AuboHardwareInterface)
    (hvel : hw.velocity_interface_running_ = true)
    (hlen : hw.joint_velocity_command_.length ≤ hw.prev_joint_velocity_command_.length)
    (hshort : hw.joint_velocity_command_.length < 6) :
    write hw = none := by
  unfold write
  rw [if_pos hvel, writeLoop_eq _ _ _ hlen]
  have h5 : (List.zipWith (fun r v => limit r v hw.max_vel_change_)
      hw.joint_velocity_command_ hw.prev_joint_velocity_command_)[5]? = none := by
    rw [List.getElem?_eq_none_iff, List.length_zipWith]; omega
  simp only []
  split
  · rename_i heq
    rw [h5] at heq
    exact absurd heq (by simp)
  · rfl

/-! ## Index safety and non-positive rate limit: settled properties -/

/-- C19: index safety of the velocity dispatch. In velocity mode with
`joint_velocity_command_` and `prev_joint_velocity_command_` both of length `N`, `write`
completes without an indexing error exactly when `N ≥ 6`; for `N > 6` it rate-limits and
stores all `N` entries and dispatches only the first six. -/
theorem write_index_safety (hw : AuboHardwareInterface) (N : Nat)
    (hvel : hw.velocity_interface_running_ = true)
    (hcmd : hw.joint_velocity_command_.length = N)
    (hprev : hw.prev_joint_velocity_command_.length = N) :
    ((write hw).isSome = true ↔ 6 ≤ N) ∧
    (6 < N →
      ∃ (limited : List ℚ) (c0 c1 c2 c3 c4 c5 : ℚ),
        limited = List.zipWith (fun r v => limit r v hw.max_vel_change_)
          hw.joint_velocity_command_ hw.prev_joint_velocity_command_ ∧
        limited.length = N ∧
        limited.take 6 = [c0, c1, c2, c3, c4, c5] ∧
        write hw = some
          ({ hw with prev_joint_velocity_command_ := limited },
            [DriverCall.setSpeed c0 c1 c2 c3 c4 c5 (hw.max_vel_change_ * 125)])) := by
  have hdrop : hw.prev_joint_velocity_command_.drop hw.joint_velocity_command_.length
      = [] := by
    rw [List.drop_eq_nil_iff]; omega
  constructor
  · constructor
    · intro hsome
      by_contra hlt
      rw [write_velocity_none hw hvel (by omega) (by omega)] at hsome
      exact absurd hsome (by simp)
    · intro hN
      obtain ⟨c0, c1, c2, c3, c4, c5, _, hwrite⟩ :=
        write_velocity_eq hw hvel (by omega) (by omega)
      rw [hwrite]
      rfl
  · intro hN
    obtain ⟨c0, c1, c2, c3, c4, c5, htake, hwrite⟩ :=
      write_velocity_eq hw hvel (by omega) (by omega)
    rw [hdrop, List.append_nil] at hwrite
    exact ⟨_, c0, c1, c2, c3, c4, c5, rfl, by rw [List.length_zipWith]; omega, htake, hwrite⟩

/-- Witness for C19: five joints fail, seven joints succeed. -/
theorem write_index_safety_witness :
    (write hwFive).isSome = false ∧ (write hwSeven).isSome = true :=
  ⟨by
    have h := (write_index_safety hwFive 5 rfl rfl rfl).1
    cases hs : (write hwFive).isSome
    · rfl
    · exact absurd (h.mp hs) (by decide),
   (write_index_safety hwSeven 7 rfl rfl rfl).1.mpr (by decide)⟩

/-- C16, as stated, fails for a negative limit: in velocity mode with
`max_vel_change_ = -1` set through `setMaxVelChange`, previous command all zero and
request all zero, `write` stores and dispatches `-1` for every joint. -/
theorem negative_rate_limit_moves :
    (setMaxVelChange hwVel (-1)).max_vel_change_ ≤ 0 ∧
    (setMaxVelChange hwVel (-1)).prev_joint_velocity_command_ = [0, 0, 0, 0, 0, 0] ∧
    write (setMaxVelChange hwVel (-1)) = some
      ({ setMaxVelChange hwVel (-1) with
          prev_joint_velocity_command_ := [-1, -1, -1, -1, -1, -1] },
        [DriverCall.setSpeed (-1) (-1) (-1) (-1) (-1) (-1) (-125)]) := by
  refine ⟨by show (-1 : ℚ) ≤ 0; norm_num, rfl, ?_⟩
  obtain ⟨c0, c1, c2, c3, c4, c5, htake, hwrite⟩ :=
    write_velocity_eq (setMaxVelChange hwVel (-1)) rfl (by decide) (by decide)
  have hz : List.zipWith (fun r v => limit r v (setMaxVelChange hwVel (-1)).max_vel_change_)
      (setMaxVelChange hwVel (-1)).joint_velocity_command_
      (setMaxVelChange hwVel (-1)).prev_joint_velocity_command_
      = [-1, -1, -1, -1, -1, -1] := by
    simp [setMaxVelChange, hwVel, hw6, limit]
  have hdrop : (setMaxVelChange hwVel (-1)).prev_joint_velocity_command_.drop
      (setMaxVelChange hwVel (-1)).joint_velocity_command_.length = [] := by decide
  have hspeed : (setMaxVelChange hwVel (-1)).max_vel_change_ * 125 = -125 := by
    show (-1 : ℚ) * 125 = -125
    norm_num
  rw [hz, hdrop, List.append_nil, hspeed] at hwrite
  rw [hz] at htake
  simp only [List.take, List.cons.injEq, and_true] at htake
  obtain ⟨h0, h1, h2, h3, h4, h5⟩ := htake
  rw [hwrite, ← h0, ← h1, ← h2, ← h3, ← h4, ← h5]

theorem limit_zero (r v : ℚ) : limit r v 0 = v := by
  unfold limit
  split_ifs with h1 h2
  · ring
  · ring
  · linarith

theorem zipWith_limit_zero (jvc prev : List ℚ) (h : jvc.length = prev.length) :
    List.zipWith (fun r v => limit r v 0) jvc prev = prev := by
  induction jvc generalizing prev with
  | nil =>
    cases prev with
    | nil => rfl
    | cons b p => simp at h
  | cons a l ih =>
    cases prev with
    | nil => simp at h
    | cons b p =>
      simp at h
      rw [List.zipWith_cons_cons, limit_zero, ih p h]

/-- C16, amended: a zero rate limit admits no motion, a negative one does not freeze.
With `max_vel_change_` set to `0` through `setMaxVelChange`, a velocity-mode `write`
(`N ≥ 6` entries) leaves the object unchanged and dispatches the first six previous
values with speed `0`, so from an all-zero previous command every dispatched command is
zero.  For a negative limit `d` the limited value is `v + d` when the request exceeds
`v + d` and `v - d` otherwise, hence never the previous value `v`. -/
theorem write_nonpositive_rate_limit :
    (∀ (hw : AuboHardwareInterface) (N : Nat),
      hw.velocity_interface_running_ = true →
      hw.joint_velocity_command_.length = N →
      hw.prev_joint_velocity_command_.length = N →
      6 ≤ N →
      ∃ c0 c1 c2 c3 c4 c5 : ℚ,
        hw.prev_joint_velocity_command_.take 6 = [c0, c1, c2, c3, c4, c5] ∧
        write (setMaxVelChange hw 0) = some
          (setMaxVelChange hw 0, [DriverCall.setSpeed c0 c1 c2 c3 c4 c5 0]) ∧
        (hw.prev_joint_velocity_command_ = List.replicate N 0 →
          write (setMaxVelChange hw 0) = some
            (setMaxVelChange hw 0, [DriverCall.setSpeed 0 0 0 0 0 0 0]))) ∧
    (∀ r v d : ℚ, d < 0 →
      limit r v d = (if r > v + d then v + d else v - d) ∧ limit r v d ≠ v) := by
  constructor
  · intro hw N hvel hcmd hprev hN
    obtain ⟨c0, c1, c2, c3, c4, c5, htake, hwrite⟩ :=
      write_velocity_eq (setMaxVelChange hw 0) hvel
        (by show hw.joint_velocity_command_.length ≤ hw.prev_joint_velocity_command_.length
            omega)
        (by show 6 ≤ hw.joint_velocity_command_.length; omega)
    have hz : List.zipWith (fun r v => limit r v (setMaxVelChange hw 0).max_vel_change_)
        (setMaxVelChange hw 0).joint_velocity_command_
        (setMaxVelChange hw 0).prev_joint_velocity_command_
        = hw.prev_joint_velocity_command_ :=
      zipWith_limit_zero hw.joint_velocity_command_ hw.prev_joint_velocity_command_
        (by omega)
    have hdrop : (setMaxVelChange hw 0).prev_joint_velocity_command_.drop
        (setMaxVelChange hw 0).joint_velocity_command_.length = [] := by
      show hw.prev_joint_velocity_command_.drop hw.joint_velocity_command_.length = []
      rw [List.drop_eq_nil_iff]; omega
    have hspeed : (setMaxVelChange hw 0).max_vel_change_ * 125 = 0 := by
      show (0 : ℚ) * 125 = 0
      norm_num
    rw [hz, hdrop, List.append_nil, hspeed] at hwrite
    rw [hz] at htake
    have hsame : ({ setMaxVelChange hw 0 with
        prev_joint_velocity_command_ := hw.prev_joint_velocity_command_ }
        : AuboHardwareInterface) = setMaxVelChange hw 0 := rfl
    rw [hsame] at hwrite
    refine ⟨c0, c1, c2, c3, c4, c5, htake, hwrite, ?_⟩
    intro hzero
    rw [hzero] at htake
    obtain ⟨n, rfl⟩ : ∃ n, N = n + 6 := ⟨N - 6, by omega⟩
    simp only [List.replicate, List.take, List.cons.injEq, and_true] at htake
    obtain ⟨h0, h1, h2, h3, h4, h5⟩ := htake
    rw [hwrite, ← h0, ← h1, ← h2, ← h3, ← h4, ← h5]
  · intro r v d hd
    unfold limit
    split_ifs with h1 h2
    · exact ⟨rfl, by linarith⟩
    · exact ⟨rfl, by linarith⟩
    · exfalso
      linarith

/-- Witness for C16 (amended): the six-joint scenario with the limit set to zero, and
the limiter at `d = -1`. -/
theorem write_nonpositive_rate_limit_witness :
    (∃ c0 c1 c2 c3 c4 c5 : ℚ,
      hwScenario.prev_joint_velocity_command_.take 6 = [c0, c1, c2, c3, c4, c5] ∧
      write (setMaxVelChange hwScenario 0) = some
        (setMaxVelChange hwScenario 0, [DriverCall.setSpeed c0 c1 c2 c3 c4 c5 0]) ∧
      (hwScenario.prev_joint_velocity_command_ = List.replicate 6 0 →
        write (setMaxVelChange hwScenario 0) = some
          (setMaxVelChange hwScenario 0, [DriverCall.setSpeed 0 0 0 0 0 0 0]))) ∧
    (limit 0 0 (-1) = (if (0 : ℚ) > 0 + (-1) then 0 + (-1) else 0 - (-1)) ∧
      limit 0 0 (-1) ≠ 0) :=
  ⟨write_nonpositive_rate_limit.1 hwScenario 6 rfl rfl rfl (by decide),
    write_nonpositive_rate_limit.2 0 0 (-1) (by norm_num)⟩

end ros_control_aubo
